import Mathlib

/-!
Verification of the well/group control helpers of the reservoir simulator
(source: opm/simulators/wells/WellGroupHelpers.cpp).

Modelling conventions:
* C++ `double` values are modelled as rationals (`ℚ`); every operation the
  code performs on them (add, sub, mul, div, max, comparisons) is exact on `ℚ`.
  The literal `1e-12` is modelled as the rational `1 / 10^12`.
* The `Schedule`, `WellState`, `GroupState` and `GuideRate` collaborators are
  data containers here; they are modelled as structures of name-keyed maps
  (total functions out of `String`).  The flat `well_index * numPhases + phase`
  array layout of the C++ well state is modelled as a per-well-name rate
  vector, which carries the same information.
* Recursions that the C++ code performs by looking names up in the schedule
  (walks up the parent chain, recursive descents keyed by group name) are
  modelled with an explicit fuel parameter; the C++ code terminates exactly
  because the group tree is acyclic, and all theorems quantify over the fuel.
* Lookups of names that the C++ `Schedule` would reject by throwing are given
  harmless default results (`0`, `none`, skip); all claims are settled on
  well-formed inputs where those defaults are never exercised.
-/

namespace WellGroupHelpers

/-- The three phases (`Opm::Phase`) iterated by the injection-control loops. -/
inductive Phase where
  | WATER
  | OIL
  | GAS
deriving DecidableEq, Repr

/-- Group production control modes (`Group::ProductionCMode`). -/
inductive ProdCMode where
  | NONE
  | ORAT
  | WRAT
  | GRAT
  | LRAT
  | CRAT
  | RESV
  | PRBL
  | FLD
deriving DecidableEq, Repr

/-- Group injection control modes (`Group::InjectionCMode`). -/
inductive InjCMode where
  | NONE
  | RATE
  | RESV
  | REIN
  | VREP
  | FLD
  | SALE
deriving DecidableEq, Repr

/-- Guide rate targets (`GuideRateModel::Target`). -/
inductive Target where
  | OIL
  | LIQ
  | GAS
  | WAT
  | RES
  | NONE
deriving DecidableEq, Repr

/-- Injection guide rate target declarations (`Group::GuideRateInjTarget`). -/
inductive GuideRateInjTarget where
  | RATE
  | VOID
  | NETV
  | RESV
  | POTN
  | NO_GUIDE_RATE
deriving DecidableEq, Repr

/-- Phase usage (`Opm::PhaseUsage`): which phases are active and their
position in a rate vector.  `OIL` stands for `BlackoilPhases::Liquid`,
`GAS` for `Vapour` and `WATER` for `Aqua`. -/
structure PhaseUsage where
  used : Phase → Bool
  pos : Phase → ℕ

/-- A guide-rate query vector (`GuideRate::RateVector`). -/
structure RateVector where
  oil : ℚ
  gas : ℚ
  water : ℚ

/-- Production controls of a group (`Group::ProductionControls`), reduced to
the numeric targets the helpers read. -/
structure ProdControls where
  cmode : ProdCMode
  oil_target : ℚ
  water_target : ℚ
  gas_target : ℚ
  liquid_target : ℚ
  resv_target : ℚ

/-- Injection controls of a group for one phase (`Group::InjectionControls`),
reduced to the fields the helpers read. -/
structure InjControls where
  cmode : InjCMode
  surface_max_rate : ℚ
  resv_max_rate : ℚ
  target_reinj_fraction : ℚ
  target_void_fraction : ℚ
  guide_rate_def : GuideRateInjTarget

/-- A schedule well record (`Opm::Well`), reduced to the fields the helpers
read: role, status, efficiency factor and parent group. -/
structure WellRec where
  isInjector : Bool
  isShut : Bool
  efficiency : ℚ
  groupName : String

/-- A schedule group record (`Opm::Group`), name-keyed view: parent name,
child group names, well names, efficiency factor and control declarations. -/
structure GroupRec where
  name : String
  parent : String
  childGroups : List String
  wells : List String
  efficiency : ℚ
  isProductionGroup : Bool
  isInjectionGroup : Bool
  productionGroupControlAvailable : Bool
  injectionGroupControlAvailable : Phase → Bool
  hasInjectionControl : Phase → Bool
  prodControls : ProdControls
  injControls : Phase → InjControls

/-- The read-only environment of a call: the schedule (group and well
records), phase usage, the well map (presence and parallel ownership of
wells, `wellState.wellMap()` and `wellState.wellIsOwned`), and the
gas sale / consumption declarations of the current report step. -/
structure Env where
  groups : String → Option GroupRec
  wells : String → Option WellRec
  np : ℕ
  pu : PhaseUsage
  wellPresent : String → Bool
  wellOwned : String → Bool
  gconsaleHas : String → Bool
  gconsaleSalesTarget : String → ℚ
  gconsumpHas : String → Bool
  gconsumpImportRate : String → ℚ
  gconsumpConsumptionRate : String → ℚ
  eventInjUpdate : String → Bool
  eventProdUpdate : String → Bool

/-- The mutable well/group state (`WellStateFullyImplicitBlackoil`), as
name-keyed maps.  The `...Defined` flags model whether an entry is present
(`hasInjectionGroupControl`, `has_production_control`). -/
structure WState where
  wellRates : String → List ℚ
  wellResRates : String → List ℚ
  injCtrl : Phase → String → InjCMode
  injCtrlDefined : Phase → String → Bool
  prodCtrl : String → ProdCMode
  prodCtrlDefined : String → Bool
  wellIsInjGrup : String → Bool
  wellIsProdGrup : String → Bool
  prodRed : String → List ℚ
  injRed : String → List ℚ
  vrepRate : String → ℚ
  reinRates : String → List ℚ
  injResvRates : String → List ℚ
  curWellRates : String → List ℚ
  prodGroupRates : String → List ℚ
  hasGratSales : String → Bool
  gratSales : String → ℚ
  alq : String → ℚ

/-- The guide-rate registry (`Opm::GuideRate`): presence tests and value
queries, for production targets and per-phase injection values. -/
structure GuideRateReg where
  has : String → Bool
  hasInj : String → Phase → Bool
  get : String → Target → RateVector → ℚ
  getInj : String → Phase → ℚ

/-- Helper of the anonymous namespace: assemble a `RateVector` from a flat
rate vector using the phase usage. -/
def getGuideRateVector (pu : PhaseUsage) (rates : List ℚ) : RateVector :=
  { oil := if pu.used .OIL then rates.getD (pu.pos .OIL) 0 else 0
    gas := if pu.used .GAS then rates.getD (pu.pos .GAS) 0 else 0
    water := if pu.used .WATER then rates.getD (pu.pos .WATER) 0 else 0 }

/-- `getWellRateVector`: rate vector of a well from its current well rates. -/
def getWellRateVector (s : WState) (pu : PhaseUsage) (name : String) : RateVector :=
  getGuideRateVector pu (s.curWellRates name)

/-- `getProductionGroupRateVector`: rate vector of a group from its current
production group rates. -/
def getProductionGroupRateVector (s : WState) (pu : PhaseUsage) (name : String) : RateVector :=
  getGuideRateVector pu (s.prodGroupRates name)

/-- The fixed epsilon `guide_rate_epsilon = 1e-12` of
`FractionCalculator::localFraction`, and the floor used for target rates. -/
def guideRateEpsilon : ℚ := 1 / 1000000000000

/-- `groupControlledWells`: number of wells in the subtree of `gname` that
are counted for guide-rate allocation: wells under group control
(`isProductionGrup` / `isInjectionGrup`) or equal to `always`, descending
only into child groups under `FLD`/`NONE` control or equal to `always`.
Fuel models the name-keyed recursion through the schedule. -/
def groupControlledWellsName (E : Env) (s : WState) (always : String)
    (isProd : Bool) (iphase : Phase) : ℕ → String → ℕ
  | 0, _ => 0
  | fuel+1, gname =>
    match E.groups gname with
    | none => 0
    | some g =>
      ((g.childGroups.map (fun cg =>
          let included := (cg == always) ||
            (if isProd then (s.prodCtrl cg == .FLD) || (s.prodCtrl cg == .NONE)
             else (s.injCtrl iphase cg == .FLD) || (s.injCtrl iphase cg == .NONE))
          if included then groupControlledWellsName E s always isProd iphase fuel cg else 0)).sum)
      + ((g.wells.map (fun w =>
          let included := (w == always) ||
            (if isProd then s.wellIsProdGrup w else s.wellIsInjGrup w)
          if included then 1 else 0)).sum)
termination_by structural fuel _ => fuel

/-- The fraction calculator (`FractionCalculator`): its constructor
arguments, bundled. -/
structure FractionCalculator where
  E : Env
  reg : GuideRateReg
  s : WState
  target : Target
  isProducer : Bool
  injectionPhase : Phase

/-- `FractionCalculator::parent`: the parent group name of a well or group. -/
def FractionCalculator.parentOf (c : FractionCalculator) (name : String) : String :=
  match c.E.wells name with
  | some w => w.groupName
  | none =>
    match c.E.groups name with
    | some g => g.parent
    | none => ""

/-- Inclusion test for a child group in `guideRateSum` /
`groupControlledWells`: equal to the always-included child, or under
`FLD`/`NONE` control for the calculator's role. -/
def FractionCalculator.groupIncluded (c : FractionCalculator) (always cg : String) : Bool :=
  (cg == always) ||
    (if c.isProducer then (c.s.prodCtrl cg == .FLD) || (c.s.prodCtrl cg == .NONE)
     else (c.s.injCtrl c.injectionPhase cg == .FLD) || (c.s.injCtrl c.injectionPhase cg == .NONE))

/-- Inclusion test for a child well in `guideRateSum` /
`groupControlledWells`: equal to the always-included child, or under group
control for the calculator's role. -/
def FractionCalculator.wellIncluded (c : FractionCalculator) (always w : String) : Bool :=
  (w == always) || (if c.isProducer then c.s.wellIsProdGrup w else c.s.wellIsInjGrup w)

/-- `FractionCalculator::guideRate`: a well's registry value; for a group
with group-controlled subordinate wells, the registered group value if
present, else the accumulated sum of the eligible children's guide rates
(inlined body of `guideRateSum`, one fuel level down); `0` for a group with
no group-controlled subordinate wells. -/
def FractionCalculator.guideRateValue (c : FractionCalculator) :
    ℕ → String → String → ℚ
  | 0, _, _ => 0
  | fuel+1, name, always =>
    if (c.E.wells name).isSome then
      c.reg.get name c.target (getWellRateVector c.s c.E.pu name)
    else
      if 0 < groupControlledWellsName c.E c.s always c.isProducer c.injectionPhase (fuel+1) name then
        if c.isProducer && c.reg.has name then
          c.reg.get name c.target (getProductionGroupRateVector c.s c.E.pu name)
        else if !c.isProducer && c.reg.hasInj name c.injectionPhase then
          c.reg.getInj name c.injectionPhase
        else
          match c.E.groups name with
          | some g =>
            ((g.childGroups.filter (c.groupIncluded always)).map
                (fun cg => FractionCalculator.guideRateValue c fuel cg always)).sum
              + ((g.wells.filter (c.wellIncluded always)).map
                  (fun w => FractionCalculator.guideRateValue c fuel w always)).sum
          | none => 0
      else 0
termination_by structural fuel _ _ => fuel

/-- `FractionCalculator::guideRateSum`: sum of the guide rates of the
eligible children (groups and wells) of `g`. -/
def FractionCalculator.guideRateSum (c : FractionCalculator) (fuel : ℕ)
    (g : GroupRec) (always : String) : ℚ :=
  ((g.childGroups.filter (c.groupIncluded always)).map
      (fun cg => FractionCalculator.guideRateValue c fuel cg always)).sum
    + ((g.wells.filter (c.wellIncluded always)).map
        (fun w => FractionCalculator.guideRateValue c fuel w always)).sum

/-- `FractionCalculator::localFraction`: own guide rate divided by the sum
of the eligible siblings' guide rates, or `0` when that sum is not above
`guide_rate_epsilon`. -/
def FractionCalculator.localFraction (c : FractionCalculator) (fuel : ℕ)
    (name always : String) : ℚ :=
  let myGuideRate := FractionCalculator.guideRateValue c fuel name always
  let totalGuideRate :=
    match c.E.groups (c.parentOf name) with
    | some pg => FractionCalculator.guideRateSum c fuel pg always
    | none => 0
  if guideRateEpsilon < totalGuideRate then myGuideRate / totalGuideRate else 0

/-- The while loop of `FractionCalculator::fraction`, with fuel for the walk
up the parent chain; `none` models a walk that never reaches the control
group. -/
def FractionCalculator.fractionLoop (c : FractionCalculator) (gfuel : ℕ)
    (always : String) : ℕ → ℚ → String → String → Option ℚ
  | 0, _, _, _ => none
  | fuel+1, acc, current, controlGroupName =>
    if current == controlGroupName then some acc
    else
      FractionCalculator.fractionLoop c gfuel always fuel
        (acc * c.localFraction gfuel current always) (c.parentOf current) controlGroupName

/-- `FractionCalculator::fraction(name, control_group_name,
always_include_this)`: product of the local fractions along the chain from
`name` up to (exclusive of) the control group. -/
def FractionCalculator.fraction (c : FractionCalculator) (gfuel lfuel : ℕ)
    (name controlGroupName : String) (alwaysIncludeThis : Bool) : Option ℚ :=
  FractionCalculator.fractionLoop c gfuel (if alwaysIncludeThis then name else "")
    lfuel 1 name controlGroupName

/-- Eligibility of `name` in the guide-rate sum of its parent group: `name`
is listed among the parent's child groups or wells, and passes the inclusion
test that `guideRateSum` applies there.  This is the precondition the code
itself records as `assert(total_guide_rate >= my_guide_rate)`. -/
def FractionCalculator.includedInParent (c : FractionCalculator) (always name : String) : Bool :=
  match c.E.groups (c.parentOf name) with
  | none => false
  | some pg =>
    (decide (name ∈ pg.childGroups) && c.groupIncluded always name)
      || (decide (name ∈ pg.wells) && c.wellIncluded always name)

/-- Eligibility along the whole chain walked by `fraction`: every node from
`current` up to (exclusive of) the control group is eligible in its parent's
guide-rate sum. -/
def FractionCalculator.walkIncluded (c : FractionCalculator) (always : String) :
    ℕ → String → String → Bool
  | 0, _, _ => false
  | fuel+1, current, controlGroupName =>
    if current == controlGroupName then true
    else c.includedInParent always current
      && FractionCalculator.walkIncluded c always fuel (c.parentOf current) controlGroupName

/-- The floor `1e-12` applied to computed target rates ("Avoid negative
target rates comming from too large local reductions"). -/
def targetRateMin : ℚ := 1 / 1000000000000

/-- Modelled from the spec: `TargetCalculator::calcModeRateFromRates`
(`opm/simulators/wells/TargetCalculator.hpp`, part of this repository but
not under `src/`).  Spec 4.2: "compute one scalar mode rate by
selecting/combining phase components per mode: e.g. reservoir-volume mode
sums all phases weighted by given RESV coefficients; rate modes pick one
phase"; liquid rate is the sum of the oil and water components. -/
def calcModeRateFromRates (pu : PhaseUsage) (cmode : ProdCMode)
    (resv_coeff : List ℚ) (rates : List ℚ) : ℚ :=
  match cmode with
  | .ORAT => rates.getD (pu.pos .OIL) 0
  | .WRAT => rates.getD (pu.pos .WATER) 0
  | .GRAT => rates.getD (pu.pos .GAS) 0
  | .LRAT => rates.getD (pu.pos .OIL) 0 + rates.getD (pu.pos .WATER) 0
  | .RESV =>
    rates.getD (pu.pos .OIL) 0 * resv_coeff.getD (pu.pos .OIL) 0
      + rates.getD (pu.pos .WATER) 0 * resv_coeff.getD (pu.pos .WATER) 0
      + rates.getD (pu.pos .GAS) 0 * resv_coeff.getD (pu.pos .GAS) 0
  | _ => 0

/-- Modelled from the spec: `TargetCalculator::groupTarget` (not under
`src/`).  The numeric target of the group's production controls for the
current mode; per the source comment "gconsale may adjust the grat target",
a gas-rate target from sales replaces the declared gas target when the well
state carries one. -/
def prodGroupTarget (cmode : ProdCMode) (ctrl : ProdControls)
    (hasGratTargetFromSales : Bool) (gratTargetFromSales : ℚ) : ℚ :=
  match cmode with
  | .ORAT => ctrl.oil_target
  | .WRAT => ctrl.water_target
  | .GRAT => if hasGratTargetFromSales then gratTargetFromSales else ctrl.gas_target
  | .LRAT => ctrl.liquid_target
  | .RESV => ctrl.resv_target
  | _ => 0

/-- Modelled from the spec: `TargetCalculator::guideTargetMode` (not under
`src/`): the guide-rate target type matching the production control mode. -/
def prodGuideTargetMode (cmode : ProdCMode) : Target :=
  match cmode with
  | .ORAT => .OIL
  | .WRAT => .WAT
  | .GRAT => .GAS
  | .LRAT => .LIQ
  | .RESV => .RES
  | _ => .NONE

/-- Modelled from the spec: `InjectionTargetCalculator::calcModeRateFromRates`
(not under `src/`): an injection mode rate picks the component of the
injection phase. -/
def injCalcModeRateFromRates (pu : PhaseUsage) (phase : Phase) (rates : List ℚ) : ℚ :=
  rates.getD (pu.pos phase) 0

/-- Modelled from the spec: `InjectionTargetCalculator::groupTarget` (not
under `src/`).  Spec 4.2: rate / reservoir-volume modes use the declared
maxima; REIN applies the reinjection fraction to the stored REIN rate; VREP
applies the voidage fraction to the stored voidage rate; the sales-driven
mode uses the schedule's sales target. -/
def injGroupTarget (cmode : InjCMode) (ctrl : InjControls) (s : WState)
    (gname : String) (pu : PhaseUsage) (phase : Phase) (salesTarget : ℚ) : ℚ :=
  match cmode with
  | .RATE => ctrl.surface_max_rate
  | .RESV => ctrl.resv_max_rate
  | .REIN => ctrl.target_reinj_fraction * (s.reinRates gname).getD (pu.pos phase) 0
  | .VREP => ctrl.target_void_fraction * s.vrepRate gname
  | .SALE => salesTarget
  | _ => 0

/-- Modelled from the spec: `InjectionTargetCalculator::guideTargetMode`
(not under `src/`): the guide-rate target type of the injection phase. -/
def injGuideTargetMode (phase : Phase) : Target :=
  match phase with
  | .WATER => .WAT
  | .OIL => .OIL
  | .GAS => .GAS

/-- The while loop of `groupChainTopBot`, with fuel; the accumulator holds
the chain bottom-first, so that the final list (returned when the walk
reaches `top`) is exactly the reversed chain of the C++ code, top-first. -/
def groupChainTopBotLoop (E : Env) (top : String) :
    ℕ → String → List String → Option (List String)
  | 0, _, _ => none
  | fuel+1, parent, chain =>
    if parent == top then some chain
    else
      match E.groups parent with
      | none => none
      | some g => groupChainTopBotLoop E top fuel g.parent (g.parent :: chain)

/-- `groupChainTopBot(bottom, top)`: the chain of names from `top` down to
`bottom`, built by walking parents up from `bottom` ('bottom' can be a well
or a group) and reversing. -/
def groupChainTopBot (E : Env) (bottom top : String) (fuel : ℕ) :
    Option (List String) :=
  let parent :=
    match E.wells bottom with
    | some w => w.groupName
    | none =>
      match E.groups bottom with
      | some g => g.parent
      | none => ""
  groupChainTopBotLoop E top fuel parent [parent, bottom]

/-- Result of a group constraint check.  `unconstrained` stands for the
early returns `std::make_pair(false, 1)`; `constrained` carries the
returned pair (`violated`, `scale`) together with the internal `target_rate`
from which the pair is computed (exposed for specification purposes). -/
inductive CheckResult where
  | unconstrained
  | constrained (violated : Bool) (scale : ℚ) (targetRate : ℚ)
deriving DecidableEq, Repr

/-- The pair actually returned by the C++ checkers. -/
def CheckResult.toPair : CheckResult → Bool × ℚ
  | .unconstrained => (false, 1)
  | .constrained v sc _ => (v, sc)

/-- The body of `checkGroupConstraintsProd` once the topmost (controlling)
group of the recursion has been found: compute the original target, walk the
chain from the control group down to `name` applying stored reductions, the
current rate added back at the local-reduction level, sub-level corrections,
and local fractions; floor the final target at 1e-12. -/
def checkProdAtControl (E : Env) (reg : GuideRateReg) (s : WState)
    (name : String) (rates : List ℚ) (resv_coeff : List ℚ) (fuel : ℕ)
    (group : GroupRec) (currentGroupControl : ProdCMode)
    (efficiencyFactor : ℚ) : Option CheckResult :=
  let hasGrat := s.hasGratSales group.name
  let gratTargetFromSales := if hasGrat then s.gratSales group.name else 0
  let fcalc : FractionCalculator :=
    { E := E, reg := reg, s := s, target := prodGuideTargetMode currentGroupControl,
      isProducer := true, injectionPhase := .OIL }
  let localReduction : String → ℚ := fun group_name =>
    calcModeRateFromRates E.pu currentGroupControl resv_coeff (s.prodRed group_name)
  let orig_target :=
    prodGroupTarget currentGroupControl group.prodControls hasGrat gratTargetFromSales
  let current_rate := -calcModeRateFromRates E.pu currentGroupControl resv_coeff rates
  match groupChainTopBot E name group.name fuel with
  | none => none
  | some chain =>
    let num_ancestors := chain.length - 1
    let local_reduction_level := (List.range num_ancestors).foldl
      (fun lvl ii => if ii == 0 || reg.has (chain.getD ii "") then ii else lvl) 0
    let efficiencyFactorInclGroup := efficiencyFactor * group.efficiency
    let target := (List.range num_ancestors).foldl (fun tgt ii =>
      let tgt1 :=
        if ii == 0 || reg.has (chain.getD ii "") then
          let t := tgt - localReduction (chain.getD ii "")
          if local_reduction_level == ii then t + current_rate * efficiencyFactorInclGroup
          else t
        else tgt
      let tgt2 :=
        if ii < num_ancestors - 1 then
          if groupControlledWellsName E s "" true .OIL fuel (chain.getD (ii+1) "") == 0
              && reg.has (chain.getD (ii+1) "") then
            tgt1 + localReduction (chain.getD (ii+1) "")
          else tgt1
        else tgt1
      tgt2 * fcalc.localFraction fuel (chain.getD (ii+1) "") name) orig_target
    let target_rate := max targetRateMin (target / efficiencyFactorInclGroup)
    some (.constrained (decide (current_rate > target_rate))
      (target_rate / current_rate) target_rate)

/-- `checkGroupConstraintsProd`: walk from the checked well/group up to the
nearest ancestor under explicit (non-`FLD`/`NONE`) production control,
multiplying in the efficiency factor of each group passed; return
`unconstrained` (the pair `(false, 1)`) if group control is unavailable at a
`FLD`/`NONE` group or if the found group is not a production group;
otherwise check against the controlling group's target. -/
def checkGroupConstraintsProd (E : Env) (reg : GuideRateReg) (s : WState)
    (name parent : String) (rates : List ℚ) (resv_coeff : List ℚ) :
    ℕ → GroupRec → ℚ → Option CheckResult
  | 0, _, _ => none
  | fuel+1, group, efficiencyFactor =>
    let currentGroupControl := s.prodCtrl group.name
    if currentGroupControl == .FLD || currentGroupControl == .NONE then
      if !group.productionGroupControlAvailable then some .unconstrained
      else
        match E.groups group.parent with
        | none => none
        | some parentGroup =>
          checkGroupConstraintsProd E reg s name parent rates resv_coeff fuel
            parentGroup (efficiencyFactor * group.efficiency)
    else if !group.isProductionGroup then some .unconstrained
    else
      checkProdAtControl E reg s name rates resv_coeff (fuel+1) group
        currentGroupControl efficiencyFactor

/-- The body of `checkGroupConstraintsInj` once the topmost (controlling)
group of the recursion has been found; mirrors the production case with the
injection target calculator, per-phase guide rates and no sign flip on the
current rate. -/
def checkInjAtControl (E : Env) (reg : GuideRateReg) (s : WState)
    (name : String) (rates : List ℚ) (resv_coeff : List ℚ)
    (injectionPhase : Phase) (fuel : ℕ) (group : GroupRec)
    (currentGroupControl : InjCMode) (efficiencyFactor : ℚ) : Option CheckResult :=
  let sales_target := if E.gconsaleHas group.name then E.gconsaleSalesTarget group.name else 0
  let fcalc : FractionCalculator :=
    { E := E, reg := reg, s := s, target := injGuideTargetMode injectionPhase,
      isProducer := false, injectionPhase := injectionPhase }
  let localReduction : String → ℚ := fun group_name =>
    injCalcModeRateFromRates E.pu injectionPhase (s.injRed group_name)
  let orig_target := injGroupTarget currentGroupControl
    (group.injControls injectionPhase) s group.name E.pu injectionPhase sales_target
  let current_rate := injCalcModeRateFromRates E.pu injectionPhase rates
  match groupChainTopBot E name group.name fuel with
  | none => none
  | some chain =>
    let num_ancestors := chain.length - 1
    let local_reduction_level := (List.range num_ancestors).foldl
      (fun lvl ii => if ii == 0 || reg.hasInj (chain.getD ii "") injectionPhase then ii else lvl) 0
    let efficiencyFactorInclGroup := efficiencyFactor * group.efficiency
    let target := (List.range num_ancestors).foldl (fun tgt ii =>
      let tgt1 :=
        if ii == 0 || reg.hasInj (chain.getD ii "") injectionPhase then
          let t := tgt - localReduction (chain.getD ii "")
          if local_reduction_level == ii then t + current_rate * efficiencyFactorInclGroup
          else t
        else tgt
      let tgt2 :=
        if ii < num_ancestors - 1 then
          if groupControlledWellsName E s "" false injectionPhase fuel (chain.getD (ii+1) "") == 0
              && reg.hasInj (chain.getD (ii+1) "") injectionPhase then
            tgt1 + localReduction (chain.getD (ii+1) "")
          else tgt1
        else tgt1
      tgt2 * fcalc.localFraction fuel (chain.getD (ii+1) "") name) orig_target
    let target_rate := max targetRateMin (target / efficiencyFactorInclGroup)
    some (.constrained (decide (current_rate > target_rate))
      (target_rate / current_rate) target_rate)

/-- `checkGroupConstraintsInj`: the injection analogue of
`checkGroupConstraintsProd`, keyed by the injection phase. -/
def checkGroupConstraintsInj (E : Env) (reg : GuideRateReg) (s : WState)
    (name parent : String) (rates : List ℚ) (resv_coeff : List ℚ)
    (injectionPhase : Phase) : ℕ → GroupRec → ℚ → Option CheckResult
  | 0, _, _ => none
  | fuel+1, group, efficiencyFactor =>
    let currentGroupControl := s.injCtrl injectionPhase group.name
    if currentGroupControl == .FLD || currentGroupControl == .NONE then
      if !(group.injectionGroupControlAvailable injectionPhase) then some .unconstrained
      else
        match E.groups group.parent with
        | none => none
        | some parentGroup =>
          checkGroupConstraintsInj E reg s name parent rates resv_coeff injectionPhase
            fuel parentGroup (efficiencyFactor * group.efficiency)
    else if !group.isInjectionGroup then some .unconstrained
    else
      checkInjAtControl E reg s name rates resv_coeff injectionPhase (fuel+1) group
        currentGroupControl efficiencyFactor

/-- Phase usage of a one-phase (oil only) run. -/
def puOilOnly : PhaseUsage :=
  { used := fun p => p == .OIL
    pos := fun _ => 0 }

/-- Default (all-zero) production controls. -/
def prodControlsNone : ProdControls :=
  { cmode := .NONE, oil_target := 0, water_target := 0, gas_target := 0,
    liquid_target := 0, resv_target := 0 }

/-- Default (all-zero) injection controls. -/
def injControlsNone : InjControls :=
  { cmode := .NONE, surface_max_rate := 0, resv_max_rate := 0,
    target_reinj_fraction := 0, target_void_fraction := 0,
    guide_rate_def := .NO_GUIDE_RATE }

/-- Scenario group FIELD: root, one child group G1, no control of its own. -/
def fieldRec : GroupRec :=
  { name := "FIELD", parent := "", childGroups := ["G1"], wells := [],
    efficiency := 1, isProductionGroup := false, isInjectionGroup := false,
    productionGroupControlAvailable := false,
    injectionGroupControlAvailable := fun _ => false,
    hasInjectionControl := fun _ => false,
    prodControls := prodControlsNone,
    injControls := fun _ => injControlsNone }

/-- Scenario group G1: under FIELD, wells W1 and W2, production group under
`ORAT` (rate) control with oil target 100, efficiency factor 1. -/
def g1Rec : GroupRec :=
  { name := "G1", parent := "FIELD", childGroups := [], wells := ["W1", "W2"],
    efficiency := 1, isProductionGroup := true, isInjectionGroup := false,
    productionGroupControlAvailable := true,
    injectionGroupControlAvailable := fun _ => false,
    hasInjectionControl := fun _ => false,
    prodControls := { prodControlsNone with cmode := .ORAT, oil_target := 100 },
    injControls := fun _ => injControlsNone }

/-- Scenario environment: the two-level tree FIELD → G1 → `[W1, W2]`, both
wells open producers with efficiency factor 1, single oil phase. -/
def envScenario : Env :=
  { groups := fun n =>
      if n == "G1" then some g1Rec else if n == "FIELD" then some fieldRec else none
    wells := fun n =>
      if n == "W1" || n == "W2" then
        some { isInjector := false, isShut := false, efficiency := 1, groupName := "G1" }
      else none
    np := 1
    pu := puOilOnly
    wellPresent := fun n => n == "W1" || n == "W2"
    wellOwned := fun _ => true
    gconsaleHas := fun _ => false
    gconsaleSalesTarget := fun _ => 0
    gconsumpHas := fun _ => false
    gconsumpImportRate := fun _ => 0
    gconsumpConsumptionRate := fun _ => 0
    eventInjUpdate := fun _ => false
    eventProdUpdate := fun _ => false }

/-- Scenario well state: G1 under `ORAT` group control, both wells under
group (`GRUP`) control, zero rates everywhere and zero stored group target
reductions. -/
def wsScenario : WState :=
  { wellRates := fun _ => [0]
    wellResRates := fun _ => [0]
    injCtrl := fun _ _ => .NONE
    injCtrlDefined := fun _ _ => false
    prodCtrl := fun n => if n == "G1" then .ORAT else .NONE
    prodCtrlDefined := fun n => n == "G1"
    wellIsInjGrup := fun _ => false
    wellIsProdGrup := fun n => n == "W1" || n == "W2"
    prodRed := fun _ => [0]
    injRed := fun _ => [0]
    vrepRate := fun _ => 0
    reinRates := fun _ => [0]
    injResvRates := fun _ => [0]
    curWellRates := fun _ => [0]
    prodGroupRates := fun _ => [0]
    hasGratSales := fun _ => false
    gratSales := fun _ => 0
    alq := fun _ => 0 }

/-- Scenario guide-rate registry: W1 has guide rate 3, W2 has guide rate 1,
no group guide rates registered. -/
def regScenario : GuideRateReg :=
  { has := fun _ => false
    hasInj := fun _ _ => false
    get := fun n _ _ => if n == "W1" then 3 else if n == "W2" then 1 else 0
    getInj := fun _ _ => 0 }

/-- The fraction calculator of the production scenario. -/
def fcalcScenario : FractionCalculator :=
  { E := envScenario, reg := regScenario, s := wsScenario,
    target := .OIL, isProducer := true, injectionPhase := .OIL }

/-- Counterexample group P: parent FIELD, children G and H. -/
def pRecCex : GroupRec :=
  { name := "P", parent := "FIELD", childGroups := ["G", "H"], wells := [],
    efficiency := 1, isProductionGroup := true, isInjectionGroup := false,
    productionGroupControlAvailable := true,
    injectionGroupControlAvailable := fun _ => false,
    hasInjectionControl := fun _ => false,
    prodControls := { prodControlsNone with cmode := .ORAT, oil_target := 100 },
    injControls := fun _ => injControlsNone }

/-- Counterexample group G: child of P, one well W, under individual `ORAT`
control. -/
def gRecCex : GroupRec :=
  { name := "G", parent := "P", childGroups := [], wells := ["W"],
    efficiency := 1, isProductionGroup := true, isInjectionGroup := false,
    productionGroupControlAvailable := true,
    injectionGroupControlAvailable := fun _ => false,
    hasInjectionControl := fun _ => false,
    prodControls := { prodControlsNone with cmode := .ORAT, oil_target := 10 },
    injControls := fun _ => injControlsNone }

/-- Counterexample group H: child of P, one well V, under `FLD` control. -/
def hRecCex : GroupRec :=
  { name := "H", parent := "P", childGroups := [], wells := ["V"],
    efficiency := 1, isProductionGroup := false, isInjectionGroup := false,
    productionGroupControlAvailable := true,
    injectionGroupControlAvailable := fun _ => false,
    hasInjectionControl := fun _ => false,
    prodControls := prodControlsNone,
    injControls := fun _ => injControlsNone }

/-- Counterexample environment: FIELD → P → (G → W, H → V). -/
def envCex : Env :=
  { envScenario with
    groups := fun n =>
      if n == "P" then some pRecCex
      else if n == "G" then some gRecCex
      else if n == "H" then some hRecCex
      else if n == "FIELD" then
        some { fieldRec with childGroups := ["P"] }
      else none
    wells := fun n =>
      if n == "W" then
        some { isInjector := false, isShut := false, efficiency := 1, groupName := "G" }
      else if n == "V" then
        some { isInjector := false, isShut := false, efficiency := 1, groupName := "H" }
      else none
    wellPresent := fun n => n == "W" || n == "V" }

/-- Counterexample well state: G under individual `ORAT` control, H under
`FLD`, both wells under group control. -/
def wsCex : WState :=
  { wsScenario with
    prodCtrl := fun n => if n == "G" then .ORAT else if n == "H" then .FLD else .NONE
    prodCtrlDefined := fun n => n == "G" || n == "H"
    wellIsProdGrup := fun n => n == "W" || n == "V" }

/-- Counterexample registry: group G has a registered guide rate of value 5,
well V has guide rate 1, everything else 0 — all values non-negative. -/
def regCex : GuideRateReg :=
  { has := fun n => n == "G"
    hasInj := fun _ _ => false
    get := fun n _ _ => if n == "G" then 5 else if n == "V" then 1 else 0
    getInj := fun _ _ => 0 }

/-- The fraction calculator of the counterexample. -/
def fcalcCex : FractionCalculator :=
  { E := envCex, reg := regCex, s := wsCex,
    target := .OIL, isProducer := true, injectionPhase := .OIL }

/-- A chain witnessing that `checkGroupConstraintsProd` returns
"unconstrained": the group and `n` of its ancestors in turn are under
`FLD`/`NONE` production control, group control being available at each of
them except the last, where it is unavailable. -/
inductive UnconstrainedChainProd (E : Env) (s : WState) : ℕ → GroupRec → Prop where
  | base (g : GroupRec) :
      (s.prodCtrl g.name = .FLD ∨ s.prodCtrl g.name = .NONE) →
      g.productionGroupControlAvailable = false →
      UnconstrainedChainProd E s 0 g
  | step (g pg : GroupRec) (n : ℕ) :
      (s.prodCtrl g.name = .FLD ∨ s.prodCtrl g.name = .NONE) →
      g.productionGroupControlAvailable = true →
      E.groups g.parent = some pg →
      UnconstrainedChainProd E s n pg →
      UnconstrainedChainProd E s (n+1) g

/-- The injection analogue of `UnconstrainedChainProd`, per phase. -/
inductive UnconstrainedChainInj (E : Env) (s : WState) (phase : Phase) :
    ℕ → GroupRec → Prop where
  | base (g : GroupRec) :
      (s.injCtrl phase g.name = .FLD ∨ s.injCtrl phase g.name = .NONE) →
      g.injectionGroupControlAvailable phase = false →
      UnconstrainedChainInj E s phase 0 g
  | step (g pg : GroupRec) (n : ℕ) :
      (s.injCtrl phase g.name = .FLD ∨ s.injCtrl phase g.name = .NONE) →
      g.injectionGroupControlAvailable phase = true →
      E.groups g.parent = some pg →
      UnconstrainedChainInj E s phase n pg →
      UnconstrainedChainInj E s phase (n+1) g

/-- Injection scenario group GI: injection group under FIELD with well WI,
gas injection controls under `RATE` control with surface max rate 50. -/
def giRec : GroupRec :=
  { name := "GI", parent := "FIELD", childGroups := [], wells := ["WI"],
    efficiency := 1, isProductionGroup := false, isInjectionGroup := true,
    productionGroupControlAvailable := false,
    injectionGroupControlAvailable := fun _ => true,
    hasInjectionControl := fun ph => ph == .GAS,
    prodControls := prodControlsNone,
    injControls := fun _ => { injControlsNone with cmode := .RATE, surface_max_rate := 50 } }

/-- Injection scenario environment: FIELD → GI → WI, WI an open injector. -/
def envInj : Env :=
  { envScenario with
    groups := fun n =>
      if n == "GI" then some giRec
      else if n == "FIELD" then some { fieldRec with childGroups := ["GI"] }
      else none
    wells := fun n =>
      if n == "WI" then
        some { isInjector := true, isShut := false, efficiency := 1, groupName := "GI" }
      else none
    wellPresent := fun n => n == "WI" }

/-- Injection scenario state: GI under `RATE` gas injection group control,
WI under group (`GRUP`) control. -/
def wsInj : WState :=
  { wsScenario with
    injCtrl := fun ph n => if n == "GI" && ph == Phase.GAS then .RATE else .NONE
    injCtrlDefined := fun ph n => n == "GI" && ph == Phase.GAS
    wellIsInjGrup := fun n => n == "WI" }

/-- Injection scenario registry: well WI has guide rate 2. -/
def regInj : GuideRateReg :=
  { regScenario with get := fun n _ _ => if n == "WI" then 2 else 0 }

/-- Per-group schedule data for the tree view: name, efficiency factor,
directly owned wells, group roles and the control declarations read by
`setCmodeGroup` and `updateGuideRatesForInjectionGroups`. -/
structure GroupData where
  name : String
  efficiency : ℚ
  wells : List String
  isProductionGroup : Bool
  isInjectionGroup : Bool
  hasInjectionControl : Phase → Bool
  injGuideRateDef : Phase → GuideRateInjTarget
  prodCmode : ProdCMode
  injCmode : Phase → InjCMode

/-- The group tree: the view of the schedule used by the bottom-up
recursions (`for (const std::string& groupName : group.groups())` followed
by `schedule.getGroup`); the tree is acyclic by construction, which is the
documented invariant of the C++ group structure. -/
inductive GroupTree where
  | node : GroupData → List GroupTree → GroupTree

/-- The data of the root node of a tree. -/
def GroupTree.data : GroupTree → GroupData
  | .node d _ => d

/-- The contribution of one well in the well loop of `sumWellPhaseRates`:
zero if the well is missing from the well map, not owned by this process,
of the wrong role, or shut; otherwise the efficiency-weighted rate, added
for injectors and subtracted for producers. -/
def wellPhaseContribution (E : Env) (rates : String → List ℚ) (phasePos : ℕ)
    (injector : Bool) (wellName : String) : ℚ :=
  if !E.wellPresent wellName then 0
  else if !E.wellOwned wellName then 0
  else
    match E.wells wellName with
    | none => 0
    | some wellEcl =>
      if (!wellEcl.isInjector && injector) || (wellEcl.isInjector && !injector) then 0
      else if wellEcl.isShut then 0
      else
        let factor := wellEcl.efficiency
        if injector then factor * (rates wellName).getD phasePos 0
        else -(factor * (rates wellName).getD phasePos 0)

mutual

/-- `sumWellPhaseRates`: recursive sum of one phase's rates over a group's
subtree — child group contributions plus the owned wells' contributions, the
total multiplied by the group's own efficiency factor. -/
def sumWellPhaseRates (E : Env) (rates : String → List ℚ) (phasePos : ℕ)
    (injector : Bool) : GroupTree → ℚ
  | .node d cs =>
    d.efficiency * (sumWellPhaseRatesList E rates phasePos injector cs
      + (d.wells.map (wellPhaseContribution E rates phasePos injector)).sum)

/-- The loop over child groups of `sumWellPhaseRates`. -/
def sumWellPhaseRatesList (E : Env) (rates : String → List ℚ) (phasePos : ℕ)
    (injector : Bool) : List GroupTree → ℚ
  | [] => 0
  | c :: rest =>
    sumWellPhaseRates E rates phasePos injector c
      + sumWellPhaseRatesList E rates phasePos injector rest

end

/-- `sumWellRates`: `sumWellPhaseRates` applied to the well state's surface
rates. -/
def sumWellRates (E : Env) (s : WState) (phasePos : ℕ) (injector : Bool)
    (t : GroupTree) : ℚ :=
  sumWellPhaseRates E s.wellRates phasePos injector t

/-- `sumWellResRates`: `sumWellPhaseRates` applied to the well state's
reservoir rates. -/
def sumWellResRates (E : Env) (s : WState) (phasePos : ℕ) (injector : Bool)
    (t : GroupTree) : ℚ :=
  sumWellPhaseRates E s.wellResRates phasePos injector t

mutual

/-- All wells of a tree paired with the product of the group efficiency
factors along the well's ancestor chain, each group's factor applied exactly
once. -/
def treeWellsEff : GroupTree → List (String × ℚ)
  | .node d cs =>
    d.wells.map (fun w => (w, d.efficiency))
      ++ (treeWellsEffList cs).map (fun p => (p.1, d.efficiency * p.2))

/-- `treeWellsEff` over a list of sibling subtrees. -/
def treeWellsEffList : List GroupTree → List (String × ℚ)
  | [] => []
  | c :: rest => treeWellsEff c ++ treeWellsEffList rest

end

/-- The phase array `const Phase all[] = {WATER, OIL, GAS}`. -/
def allPhases : List Phase := [.WATER, .OIL, .GAS]

/-- The message of the fatal error thrown for a `RESV` injection guide-rate
target. -/
def resvMsg (gname : String) : String :=
  "GUIDE PHASE RESV not implemented. Group " ++ gname

/-- The per-phase guide-rate value computation of
`updateGuideRatesForInjectionGroups`: `RATE`, `POTN` and `NO_GUIDE_RATE`
leave the value at 0, `VOID` uses the group's voidage-replacement rate,
`NETV` subtracts the other phases' reservoir injection rates from it, and
`RESV` throws a fatal error naming the group. -/
def injGuideRateValuePhase (E : Env) (s : WState) (d : GroupData)
    (phase : Phase) : Except String ℚ :=
  match d.injGuideRateDef phase with
  | .RATE => .ok 0
  | .VOID => .ok (s.vrepRate d.name)
  | .NETV =>
    let injRES := s.injResvRates d.name
    let v0 := s.vrepRate d.name
    let v1 := if phase != Phase.OIL && E.pu.used .OIL
      then v0 - injRES.getD (E.pu.pos .OIL) 0 else v0
    let v2 := if phase != Phase.GAS && E.pu.used .GAS
      then v1 - injRES.getD (E.pu.pos .GAS) 0 else v1
    let v3 := if phase != Phase.WATER && E.pu.used .WATER
      then v2 - injRES.getD (E.pu.pos .WATER) 0 else v2
    .ok v3
  | .RESV => .error (resvMsg d.name)
  | .POTN => .ok 0
  | .NO_GUIDE_RATE => .ok 0

/-- The phase loop of `updateGuideRatesForInjectionGroups` for one group:
for each phase with injection control, compute the guide-rate value (or
throw) and record the `guideRate->compute` call. -/
def updateGuideRatesInjPhases (E : Env) (s : WState) (d : GroupData) :
    List Phase → List (String × Phase × ℚ) → Except String (List (String × Phase × ℚ))
  | [], acc => .ok acc
  | ph :: rest, acc =>
    if !d.hasInjectionControl ph then updateGuideRatesInjPhases E s d rest acc
    else
      match injGuideRateValuePhase E s d ph with
      | .error e => .error e
      | .ok v => updateGuideRatesInjPhases E s d rest (acc ++ [(d.name, ph, v)])

mutual

/-- `updateGuideRatesForInjectionGroups`: recurse into the child groups,
then run the phase loop for the group itself; the accumulated list models
the `guideRate->compute(name, phase, step, value)` calls, and an `error`
models the thrown exception. -/
def updateGuideRatesForInjectionGroups (E : Env) (s : WState) :
    GroupTree → List (String × Phase × ℚ) → Except String (List (String × Phase × ℚ))
  | .node d cs, acc =>
    match updateGuideRatesForInjectionGroupsList E s cs acc with
    | .error e => .error e
    | .ok acc1 => updateGuideRatesInjPhases E s d allPhases acc1

/-- The child-group loop of `updateGuideRatesForInjectionGroups`. -/
def updateGuideRatesForInjectionGroupsList (E : Env) (s : WState) :
    List GroupTree → List (String × Phase × ℚ) → Except String (List (String × Phase × ℚ))
  | [], acc => .ok acc
  | c :: rest, acc =>
    match updateGuideRatesForInjectionGroups E s c acc with
    | .error e => .error e
    | .ok acc1 => updateGuideRatesForInjectionGroupsList E s rest acc1

end

/-- Does this group declare the `RESV` guide-rate target for a phase it has
injection control for? -/
def GroupData.hasRESVTarget (d : GroupData) : Bool :=
  allPhases.any (fun ph => d.hasInjectionControl ph && (d.injGuideRateDef ph == .RESV))

mutual

/-- Is there a group with a `RESV` guide-rate target in the tree? -/
def treeHasRESV : GroupTree → Bool
  | .node d cs => treeHasRESVList cs || d.hasRESVTarget

/-- `treeHasRESV` over a list of sibling subtrees. -/
def treeHasRESVList : List GroupTree → Bool
  | [] => false
  | c :: rest => treeHasRESV c || treeHasRESVList rest

end

mutual

/-- The names of the groups of a tree with a `RESV` guide-rate target. -/
def resvGroups : GroupTree → List String
  | .node d cs => resvGroupsList cs ++ (if d.hasRESVTarget then [d.name] else [])

/-- `resvGroups` over a list of sibling subtrees. -/
def resvGroupsList : List GroupTree → List String
  | [] => []
  | c :: rest => resvGroups c ++ resvGroupsList rest

end

/-- Injection-group data of the C7 witness, with a `VOID` (legal) target. -/
def giDataOk : GroupData :=
  { name := "GI", efficiency := 1, wells := ["WI"],
    isProductionGroup := false, isInjectionGroup := true,
    hasInjectionControl := fun ph => ph == .GAS,
    injGuideRateDef := fun _ => .VOID,
    prodCmode := .NONE, injCmode := fun _ => .RATE }

/-- Injection-group data of the C7 witness, with the unsupported `RESV`
target. -/
def giDataResv : GroupData :=
  { giDataOk with name := "GR", injGuideRateDef := fun _ => .RESV }

/-- The separate `GroupState` object consulted by `setCmodeGroup` before
defaulting the production control (`group_state.has_production_control`). -/
structure GroupStateModel where
  has_production_control : String → Bool

/-- `wellState.setCurrentInjectionGroupControl`: store the control value and
mark the entry present. -/
def WState.setInjGroupControl (s : WState) (ph : Phase) (gname : String)
    (v : InjCMode) : WState :=
  { s with
    injCtrl := fun p n => if p = ph ∧ n = gname then v else s.injCtrl p n
    injCtrlDefined := fun p n => if p = ph ∧ n = gname then true else s.injCtrlDefined p n }

/-- `wellState.setCurrentProductionGroupControl`: store the control value
and mark the entry present. -/
def WState.setProdGroupControl (s : WState) (gname : String)
    (v : ProdCMode) : WState :=
  { s with
    prodCtrl := fun n => if n = gname then v else s.prodCtrl n
    prodCtrlDefined := fun n => if n = gname then true else s.prodCtrlDefined n }

/-- Stage 1 of `setCmodeGroup`'s handling of one group: "use NONE as
default control" for each injection phase with no control present. -/
def defaultInjNone (d : GroupData) (s : WState) : WState :=
  allPhases.foldl (fun st ph =>
    if !(st.injCtrlDefined ph d.name) then st.setInjGroupControl ph d.name .NONE
    else st) s

/-- Stage 2: default the production control to `NONE` when the group-state
object reports none. -/
def defaultProdNone (gs : GroupStateModel) (d : GroupData) (s : WState) : WState :=
  if !(gs.has_production_control d.name) then s.setProdGroupControl d.name .NONE
  else s

/-- Stage 3: on a `GROUP_INJECTION_UPDATE` event of an injection group,
store the declared injection control of each phase that has one. -/
def applyInjEvent (E : Env) (d : GroupData) (s : WState) : WState :=
  if d.isInjectionGroup && E.eventInjUpdate d.name then
    allPhases.foldl (fun st ph =>
      if !(d.hasInjectionControl ph) then st
      else st.setInjGroupControl ph d.name (d.injCmode ph)) s
  else s

/-- Stage 4: on a `GROUP_PRODUCTION_UPDATE` event of a production group,
store the declared production control. -/
def applyProdEvent (E : Env) (d : GroupData) (s : WState) : WState :=
  if d.isProductionGroup && E.eventProdUpdate d.name then
    s.setProdGroupControl d.name d.prodCmode
  else s

/-- Stage 5: groups with a gas-sale declaration get `SALE` gas injection
control. -/
def applyGconsale (E : Env) (d : GroupData) (s : WState) : WState :=
  if E.gconsaleHas d.name then s.setInjGroupControl Phase.GAS d.name .SALE
  else s

/-- The non-recursive tail of `setCmodeGroup` for one group, in source
order: default absent injection controls and (for a group unknown to the
group-state object) the production control to `NONE`, apply schedule-event
controls, then the gas-sale override. -/
def setCmodeGroupOwn (E : Env) (gs : GroupStateModel) (d : GroupData)
    (s : WState) : WState :=
  applyGconsale E d (applyProdEvent E d (applyInjEvent E d
    (defaultProdNone gs d (defaultInjNone d s))))

mutual

/-- `setCmodeGroup`: recurse into the child groups first, then handle the
group itself. -/
def setCmodeGroup (E : Env) (gs : GroupStateModel) : GroupTree → WState → WState
  | .node d cs, s => setCmodeGroupOwn E gs d (setCmodeGroupList E gs cs s)

/-- The child-group loop of `setCmodeGroup`. -/
def setCmodeGroupList (E : Env) (gs : GroupStateModel) :
    List GroupTree → WState → WState
  | [], s => s
  | c :: rest, s => setCmodeGroupList E gs rest (setCmodeGroup E gs c s)

end

mutual

/-- The names of all groups of a tree. -/
def treeNames : GroupTree → List String
  | .node d cs => d.name :: treeNamesList cs

/-- `treeNames` over a list of sibling subtrees. -/
def treeNamesList : List GroupTree → List String
  | [] => []
  | c :: rest => treeNames c ++ treeNamesList rest

end

/-- C10 counterexample: the claim as stated is false.  For a single group GX
that is not a production group, has no schedule events and no gas-sale
declaration, but for which the separate group-state object does report a
production control while the well state has none, `setCmodeGroup` leaves
the well state's production group control undefined. -/
def gxData : GroupData :=
  { name := "GX", efficiency := 1, wells := [],
    isProductionGroup := false, isInjectionGroup := false,
    hasInjectionControl := fun _ => false,
    injGuideRateDef := fun _ => .NO_GUIDE_RATE,
    prodCmode := .NONE, injCmode := fun _ => .NONE }

/-- The group-state object of the C10 counterexample: it reports a
production control for GX. -/
def gsHasGX : GroupStateModel :=
  { has_production_control := fun n => n == "GX" }

/-- The group-state object of the C10 witness: it reports no production
controls. -/
def gsNone : GroupStateModel :=
  { has_production_control := fun _ => false }

/-- Overwrite one entry of a name-keyed map. -/
def updMap {α : Type} (m : String → α) (k : String) (v : α) : String → α :=
  fun x => if x = k then v else m x

/-- Apply a list of entry writes to a name-keyed map, in order (later writes
win). -/
def insertList {α : Type} : List (String × α) → (String → α) → (String → α)
  | [], m => m
  | p :: rest, m => insertList rest (updMap m p.1 p.2)

mutual

/-- Generic shape shared by the bottom-up "refresh one name-keyed map of the
well state" updaters (`updateVREPForGroups`, `updateREINForGroups`,
`updateReservoirRatesInjectionGroups`, `updateWellRates`,
`updateGroupProductionRates`): recurse into the child groups, then write the
entries of the current group (computed from the frozen nupcol state and the
schedule alone) into the map selected by the `get`/`put` lens. -/
def updateGroupMapMulti {α : Type} (pairsOf : GroupTree → List (String × α))
    (get : WState → String → α) (put : WState → (String → α) → WState) :
    GroupTree → WState → WState
  | .node d cs, s =>
    let s1 := updateGroupMapMultiList pairsOf get put cs s
    put s1 (insertList (pairsOf (.node d cs)) (get s1))

/-- The child-group loop of `updateGroupMapMulti`. -/
def updateGroupMapMultiList {α : Type} (pairsOf : GroupTree → List (String × α))
    (get : WState → String → α) (put : WState → (String → α) → WState) :
    List GroupTree → WState → WState
  | [], s => s
  | c :: rest, s =>
    updateGroupMapMultiList pairsOf get put rest (updateGroupMapMulti pairsOf get put c s)

end

mutual

/-- All entries written by `updateGroupMapMulti` over a tree, in write
order. -/
def groupMapPairs {α : Type} (pairsOf : GroupTree → List (String × α)) :
    GroupTree → List (String × α)
  | .node d cs => groupMapPairsList pairsOf cs ++ pairsOf (.node d cs)

/-- `groupMapPairs` over a list of sibling subtrees. -/
def groupMapPairsList {α : Type} (pairsOf : GroupTree → List (String × α)) :
    List GroupTree → List (String × α)
  | [] => []
  | c :: rest => groupMapPairs pairsOf c ++ groupMapPairsList pairsOf rest

end

/-- The `resv` accumulation of `updateVREPForGroups`: the sum, over the
active phases, of the subtree's producer reservoir rates from the frozen
nupcol state. -/
def vrepValue (E : Env) (nup : WState) (t : GroupTree) : ℚ :=
  ((List.range E.np).map
    (fun phase => sumWellPhaseRates E nup.wellResRates phase false t)).sum

/-- `updateVREPForGroups`: children first, then store the group's voidage
(production reservoir-volume) rate. -/
def updateVREPForGroups (E : Env) (nup : WState) : GroupTree → WState → WState :=
  updateGroupMapMulti (fun t => [(t.data.name, vrepValue E nup t)])
    (fun s => s.vrepRate) (fun s m => { s with vrepRate := m })

/-- The per-phase injection reservoir rates of
`updateReservoirRatesInjectionGroups`. -/
def injResvValue (E : Env) (nup : WState) (t : GroupTree) : List ℚ :=
  (List.range E.np).map
    (fun phase => sumWellPhaseRates E nup.wellResRates phase true t)

/-- `updateReservoirRatesInjectionGroups`: children first, then store the
group's injection reservoir-rate vector. -/
def updateReservoirRatesInjectionGroups (E : Env) (nup : WState) :
    GroupTree → WState → WState :=
  updateGroupMapMulti (fun t => [(t.data.name, injResvValue E nup t)])
    (fun s => s.injResvRates) (fun s m => { s with injResvRates := m })

/-- The per-phase production rates of `updateGroupProductionRates`. -/
def prodGroupRatesValue (E : Env) (nup : WState) (t : GroupTree) : List ℚ :=
  (List.range E.np).map
    (fun phase => sumWellPhaseRates E nup.wellRates phase false t)

/-- `updateGroupProductionRates`: children first, then store the group's
production-rate vector. -/
def updateGroupProductionRates (E : Env) (nup : WState) :
    GroupTree → WState → WState :=
  updateGroupMapMulti (fun t => [(t.data.name, prodGroupRatesValue E nup t)])
    (fun s => s.prodGroupRates) (fun s m => { s with prodGroupRates := m })

/-- The REIN vector of a group: per-phase production rates of the subtree,
with the gas component adjusted by the group's declared gas import and
consumption rates. -/
def reinValue (E : Env) (nup : WState) (t : GroupTree) : List ℚ :=
  let rein := (List.range E.np).map
    (fun phase => sumWellPhaseRates E nup.wellRates phase false t)
  if E.gconsumpHas t.data.name then
    if E.pu.used .GAS then
      let i := E.pu.pos .GAS
      rein.set i (rein.getD i 0 + E.gconsumpImportRate t.data.name
        - E.gconsumpConsumptionRate t.data.name)
    else rein
  else rein

/-- `updateREINForGroups`: children first, then store the group's REIN
vector. -/
def updateREINForGroups (E : Env) (nup : WState) : GroupTree → WState → WState :=
  updateGroupMapMulti (fun t => [(t.data.name, reinValue E nup t)])
    (fun s => s.reinRates) (fun s m => { s with reinRates := m })

/-- The current-rate vector stored for one well by `updateWellRates`: zeros
when the well is not found on this node, otherwise the frozen nupcol rates
sign-flipped for producers ("production wellRates are negative"). -/
def wellRateValue (E : Env) (nup : WState) (wellName : String) : List ℚ :=
  if E.wellPresent wellName then
    match E.wells wellName with
    | some wellTmp =>
      let sign : ℚ := if !wellTmp.isInjector then -1 else 1
      (List.range E.np).map (fun phase => sign * (nup.wellRates wellName).getD phase 0)
    | none => List.replicate E.np 0
  else List.replicate E.np 0

/-- `updateWellRates`: children first, then store the current-rate vector of
every well of the group. -/
def updateWellRates (E : Env) (nup : WState) : GroupTree → WState → WState :=
  updateGroupMapMulti (fun t => t.data.wells.map (fun w => (w, wellRateValue E nup w)))
    (fun s => s.curWellRates) (fun s m => { s with curWellRates := m })

/-- The phase-position lookup of the injection branch of
`updateGroupTargetReduction`: the rate-vector position of a phase, `none`
(C++ `continue`) when the phase is not active. -/
def phasePosOf (pu : PhaseUsage) (phase : Phase) : Option ℕ :=
  match phase with
  | .GAS => if pu.used .GAS then some (pu.pos .GAS) else none
  | .OIL => if pu.used .OIL then some (pu.pos .OIL) else none
  | .WATER => if pu.used .WATER then some (pu.pos .WATER) else none

mutual

/-- Tree form of `groupControlledWells` evaluated against one (frozen) well
state: wells under group control or equal to `always`, descending only into
child groups under `FLD`/`NONE` control or equal to `always`. -/
def groupControlledWellsT (st : WState) (always : String) (isProd : Bool)
    (iphase : Phase) : GroupTree → ℕ
  | .node d cs =>
    groupControlledWellsTList st always isProd iphase cs
      + (d.wells.map (fun w =>
          let included := (w == always) ||
            (if isProd then st.wellIsProdGrup w else st.wellIsInjGrup w)
          if included then 1 else 0)).sum

/-- The child-group loop of `groupControlledWellsT`. -/
def groupControlledWellsTList (st : WState) (always : String) (isProd : Bool)
    (iphase : Phase) : List GroupTree → ℕ
  | [] => 0
  | c :: rest =>
    (let included := (c.data.name == always) ||
        (if isProd then (st.prodCtrl c.data.name == .FLD) || (st.prodCtrl c.data.name == .NONE)
         else (st.injCtrl iphase c.data.name == .FLD) || (st.injCtrl iphase c.data.name == .NONE))
      if included then groupControlledWellsT st always isProd iphase c else 0)
      + groupControlledWellsTList st always isProd iphase rest

end

/-- The per-well body of the wells loop of `updateGroupTargetReduction`:
wells of the right role, open, present and owned contribute their full
nupcol rate (efficiency-weighted, negated for producers) when they are not
under group (`GRUP`) control.  `wig`/`wpg` are the current well state's
"is under GRUP control" maps. -/
def reductionWellContribution (E : Env) (nup : WState) (isInj : Bool)
    (wig wpg : String → Bool) (red : List ℚ) (wellName : String) : List ℚ :=
  match E.wells wellName with
  | none => red
  | some wellTmp =>
    if !wellTmp.isInjector && isInj then red
    else if wellTmp.isInjector && !isInj then red
    else if wellTmp.isShut then red
    else if !E.wellPresent wellName then red
    else if !E.wellOwned wellName then red
    else
      let efficiency := wellTmp.efficiency
      if isInj then
        if !(wig wellName) then
          (List.range E.np).foldl (fun r phase =>
            r.set phase (r.getD phase 0
              + (nup.wellRates wellName).getD phase 0 * efficiency)) red
        else red
      else
        if !(wpg wellName) then
          (List.range E.np).foldl (fun r phase =>
            r.set phase (r.getD phase 0
              - (nup.wellRates wellName).getD phase 0 * efficiency)) red
        else red

/-- The per-subgroup accumulation of `updateGroupTargetReduction`: an
individually controlled subgroup (and, for production, one with no
group-controlled wells) contributes its full nupcol rate; otherwise the
subgroup's own reduction vector `subRed` is accumulated — for production
only when no group guide rate is registered for it.  `ic`/`pc` are the
current well state's group-control maps. -/
def reductionSubGroupContribution (E : Env) (reg : GuideRateReg) (nup : WState)
    (isInj : Bool) (ic : Phase → String → InjCMode) (pc : String → ProdCMode)
    (red subRed : List ℚ) (c : GroupTree) : List ℚ :=
  if isInj then
    allPhases.foldl (fun r phase =>
      match phasePosOf E.pu phase with
      | none => r
      | some phasePos =>
        if !(ic phase c.data.name == .FLD) && !(ic phase c.data.name == .NONE) then
          r.set phasePos (r.getD phasePos 0
            + sumWellPhaseRates E nup.wellRates phasePos true c)
        else
          r.set phasePos (r.getD phasePos 0 + subRed.getD phasePos 0)) red
  else
    let ctrl := pc c.data.name
    let individual_control := !(ctrl == .FLD) && !(ctrl == .NONE)
    let num_group_controlled_wells := groupControlledWellsT nup "" true .OIL c
    if individual_control || num_group_controlled_wells == 0 then
      (List.range E.np).foldl (fun r phase =>
        r.set phase (r.getD phase 0
          + sumWellPhaseRates E nup.wellRates phase false c)) red
    else
      if !(reg.has c.data.name) then
        (List.range E.np).foldl (fun r phase =>
          r.set phase (r.getD phase 0 + subRed.getD phase 0)) red
      else red

mutual

/-- The reduction vector `updateGroupTargetReduction` computes for one
group, as a pure function of the frozen nupcol state and the current well
state's read-only projections (`ic`, `pc`, `wig`, `wpg`). -/
def groupTargetReductionVec (E : Env) (reg : GuideRateReg) (nup : WState)
    (isInj : Bool) (ic : Phase → String → InjCMode) (pc : String → ProdCMode)
    (wig wpg : String → Bool) : GroupTree → List ℚ
  | .node d cs =>
    let red0 := groupTargetReductionVecList E reg nup isInj ic pc wig wpg cs
      (List.replicate E.np 0)
    let red1 := d.wells.foldl (reductionWellContribution E nup isInj wig wpg) red0
    red1.map (fun elem => elem * d.efficiency)

/-- The subgroup loop of `groupTargetReductionVec`, threading the
accumulated reduction vector. -/
def groupTargetReductionVecList (E : Env) (reg : GuideRateReg) (nup : WState)
    (isInj : Bool) (ic : Phase → String → InjCMode) (pc : String → ProdCMode)
    (wig wpg : String → Bool) : List GroupTree → List ℚ → List ℚ
  | [], red => red
  | c :: rest, red =>
    let subRed := groupTargetReductionVec E reg nup isInj ic pc wig wpg c
    groupTargetReductionVecList E reg nup isInj ic pc wig wpg rest
      (reductionSubGroupContribution E reg nup isInj ic pc red subRed c)

end

mutual

/-- `updateGroupTargetReduction`: recurse into the subgroups (each stores
its own reduction into the well state and returns its vector), accumulate
their contributions, add the contributions of individually-controlled own
wells, scale by the group's efficiency factor, store the vector in the well
state (injection or production reduction map) and return it. -/
def updateGroupTargetReduction (E : Env) (reg : GuideRateReg) (nup : WState)
    (isInj : Bool) : GroupTree → WState → WState × List ℚ
  | .node d cs, s =>
    let p := updateGroupTargetReductionList E reg nup isInj cs s
      (List.replicate E.np 0)
    let s1 := p.1
    let red1 := d.wells.foldl
      (reductionWellContribution E nup isInj s1.wellIsInjGrup s1.wellIsProdGrup) p.2
    let red2 := red1.map (fun elem => elem * d.efficiency)
    (if isInj then { s1 with injRed := updMap s1.injRed d.name red2 }
     else { s1 with prodRed := updMap s1.prodRed d.name red2 }, red2)

/-- The subgroup loop of `updateGroupTargetReduction`, threading the well
state and the accumulated reduction vector. -/
def updateGroupTargetReductionList (E : Env) (reg : GuideRateReg) (nup : WState)
    (isInj : Bool) : List GroupTree → WState → List ℚ → WState × List ℚ
  | [], s, red => (s, red)
  | c :: rest, s, red =>
    let sub := updateGroupTargetReduction E reg nup isInj c s
    let red1 := reductionSubGroupContribution E reg nup isInj sub.1.injCtrl
      sub.1.prodCtrl red sub.2 c
    updateGroupTargetReductionList E reg nup isInj rest sub.1 red1

end

mutual

/-- The reduction-map entries written by `updateGroupTargetReduction` over a
tree, in write order. -/
def trPairs (E : Env) (reg : GuideRateReg) (nup : WState) (isInj : Bool)
    (ic : Phase → String → InjCMode) (pc : String → ProdCMode)
    (wig wpg : String → Bool) : GroupTree → List (String × List ℚ)
  | .node d cs =>
    trPairsList E reg nup isInj ic pc wig wpg cs
      ++ [(d.name, groupTargetReductionVec E reg nup isInj ic pc wig wpg (.node d cs))]

/-- `trPairs` over a list of sibling subtrees. -/
def trPairsList (E : Env) (reg : GuideRateReg) (nup : WState) (isInj : Bool)
    (ic : Phase → String → InjCMode) (pc : String → ProdCMode)
    (wig wpg : String → Bool) : List GroupTree → List (String × List ℚ)
  | [] => []
  | c :: rest =>
    trPairs E reg nup isInj ic pc wig wpg c
      ++ trPairsList E reg nup isInj ic pc wig wpg rest

end

/-- A network branch (`Opm::Network::Branch`): downtree and uptree node
names and the optional VFP table number (a table number declared as 9999 in
the deck means "no pressure loss" and is represented as `none`). -/
structure NetBranch where
  downtree_node : String
  uptree_node : String
  vfp_table : Option ℕ
deriving DecidableEq, Repr

/-- The extended network (`Opm::Network::ExtNetwork`), name-keyed as the C++
code consumes it. -/
structure Network where
  active : Bool
  root : String
  downtreeBranches : String → List NetBranch
  uptreeBranch : String → Option NetBranch
  terminalPressure : String → Option ℚ
  addGasLiftGas : String → Bool

/-- The fixed phase indices `BlackoilPhases::Aqua = 0`, `Liquid = 1`,
`Vapour = 2` used for the 3-component network rate vectors. -/
def aquaPos : ℕ := 0

/-- `BlackoilPhases::Liquid`. -/
def liquidPos : ℕ := 1

/-- `BlackoilPhases::Vapour`. -/
def vapourPos : ℕ := 2

/-- The explicit-stack discovery loop of `computeNetworkPressures` (pass 1):
pop a node, append it to the parent-before-child order, record it as a leaf
when it has no downtree branches, push its downtree nodes.  Fuel bounds the
loop (the C++ loop terminates because the network is a forest). -/
def discoverLoop (net : Network) :
    ℕ → List String → List String × List String → Option (List String × List String)
  | _, [], acc => some acc
  | 0, _ :: _, _ => none
  | fuel+1, node :: stack, (order, leaves) =>
    let branches := net.downtreeBranches node
    let leaves1 := if branches.isEmpty then leaves ++ [node] else leaves
    discoverLoop net fuel ((branches.map (fun br => br.downtree_node)).reverse ++ stack)
      (order ++ [node], leaves1)

/-- Pass 1 of `computeNetworkPressures`: the root-to-child node order and
the leaf nodes, starting from the network root. -/
def networkOrderAndLeaves (net : Network) (fuel : ℕ) :
    Option (List String × List String) :=
  discoverLoop net fuel [net.root] ([], [])

/-- Leaf inflow initialization of `computeNetworkPressures`: each leaf gets
the corresponding group's production rates, with the wells' artificial-lift
gas added to the gas component when requested. -/
def initialInflows (net : Network) (E : Env) (s : WState)
    (leaves : List String) : String → Option (List ℚ) :=
  leaves.foldl (fun m node =>
    let base := s.prodGroupRates node
    let infl :=
      if net.addGasLiftGas node then
        match E.groups node with
        | some g => base.set vapourPos
            (base.getD vapourPos 0 + (g.wells.map (fun w => s.alq w)).sum)
        | none => base
      else base
    updMap m node (some infl)) (fun _ => none)

/-- Pass 2 of `computeNetworkPressures`: walking child-to-root, add each
node's inflow into its uptree node's inflow (the `std::map` `operator[]`
default-inserts an empty vector, and an empty uptree inflow is replaced by
the downtree one). -/
def accumulateInflows (net : Network) :
    List String → (String → Option (List ℚ)) → (String → Option (List ℚ))
  | [], m => m
  | node :: rest, m =>
    let m1 :=
      match net.uptreeBranch node with
      | none => m
      | some br =>
        let down := match m node with | some v => v | none => []
        let up := match m br.uptree_node with | some v => v | none => []
        let newUp := if up.isEmpty then down else List.zipWith (· + ·) up down
        updMap (updMap m node (some down)) br.uptree_node (some newUp)
    accumulateInflows net rest m1

/-- The inflow map of `computeNetworkPressures` after passes 1 and 2. -/
def networkInflows (net : Network) (E : Env) (s : WState)
    (order leaves : List String) : String → Option (List ℚ) :=
  accumulateInflows net order.reverse (initialInflows net E s leaves)

/-- One step of pass 3 of `computeNetworkPressures`: a fixed-pressure
(terminal) node gets its declared pressure; otherwise the node's pressure is
computed from the already-computed uptree pressure — through the VFP table
of the uptree branch on the sign-flipped accumulated rates, or unchanged
("no pressure loss") when the branch has no VFP table.  Reading an absent
uptree pressure default-inserts `0` (`std::map::operator[]`); a missing
uptree branch is the C++ `assert(upbranch)` case and writes nothing. -/
def nodePressureStep (net : Network) (vfpEval : ℕ → ℚ → ℚ → ℚ → ℚ → ℚ → ℚ)
    (inflows : String → Option (List ℚ)) (m : String → Option ℚ)
    (node : String) : String → Option ℚ :=
  match net.terminalPressure node with
  | some press => updMap m node (some press)
  | none =>
    match net.uptreeBranch node with
    | none => m
    | some br =>
      let up_press := match m br.uptree_node with | some p => p | none => 0
      let m1 := match m br.uptree_node with
        | some _ => m
        | none => updMap m br.uptree_node (some 0)
      match br.vfp_table with
      | some tbl =>
        let rates := (match inflows node with | some v => v | none => []).map
          (fun r => r * (-1))
        updMap m1 node (some (vfpEval tbl (rates.getD aquaPos 0)
          (rates.getD liquidPos 0) (rates.getD vapourPos 0) up_press 0))
      | none => updMap m1 node (some up_press)

/-- Pass 3 of `computeNetworkPressures`: fold the node-pressure step over
the root-to-child order. -/
def computeNodePressures (net : Network) (vfpEval : ℕ → ℚ → ℚ → ℚ → ℚ → ℚ → ℚ)
    (inflows : String → Option (List ℚ)) :
    List String → (String → Option ℚ) → (String → Option ℚ)
  | [], m => m
  | node :: rest, m =>
    computeNodePressures net vfpEval inflows rest
      (nodePressureStep net vfpEval inflows m node)

/-- `computeNetworkPressures`: the three passes; an inactive network yields
the empty map, and `none` models pass 1 running out of fuel (a cyclic
network, on which the C++ loop would not terminate). -/
def computeNetworkPressures (net : Network) (E : Env) (s : WState)
    (vfpEval : ℕ → ℚ → ℚ → ℚ → ℚ → ℚ → ℚ) (fuel : ℕ) :
    Option (String → Option ℚ) :=
  if !net.active then some (fun _ => none)
  else
    match networkOrderAndLeaves net fuel with
    | none => none
    | some (order, leaves) =>
      let inflows := networkInflows net E s order leaves
      some (computeNodePressures net vfpEval inflows order (fun _ => none))

/-- The C9 scenario network: a fixed-pressure root R (terminal pressure 50)
and a single leaf group L connected by a branch with no VFP table. -/
def netScenario : Network :=
  { active := true
    root := "R"
    downtreeBranches := fun nm =>
      if nm == "R" then [{ downtree_node := "L", uptree_node := "R", vfp_table := none }]
      else []
    uptreeBranch := fun nm =>
      if nm == "L" then some { downtree_node := "L", uptree_node := "R", vfp_table := none }
      else none
    terminalPressure := fun nm => if nm == "R" then some 50 else none
    addGasLiftGas := fun _ => false }

/-- The C9 scenario well state: leaf group L produces `[aqua 0, liquid 0,
gas 10]`. -/
def wsNet : WState :=
  { wsScenario with
    prodGroupRates := fun nm => if nm == "L" then [0, 0, 10] else [0] }

/-- An arbitrary VFP evaluation stub (never consulted on a branch without a
VFP table). -/
def vfpZero : ℕ → ℚ → ℚ → ℚ → ℚ → ℚ → ℚ := fun _ _ _ _ _ _ => 0

theorem guideRateValue_nonneg (c : FractionCalculator)
    (hget : ∀ n t v, 0 ≤ c.reg.get n t v)
    (hgetInj : ∀ n p, 0 ≤ c.reg.getInj n p) :
    ∀ fuel name always, 0 ≤ c.guideRateValue fuel name always := by
  intro fuel
  induction fuel with
  | zero =>
    intro name always
    simp [FractionCalculator.guideRateValue]
  | succ f ih =>
    intro name always
    rw [FractionCalculator.guideRateValue]
    split
    · exact hget _ _ _
    split
    · split
      · exact hget _ _ _
      split
      · exact hgetInj _ _
      split
      · apply add_nonneg
        · apply List.sum_nonneg
          intro x hx
          obtain ⟨cg, _, rfl⟩ := List.mem_map.mp hx
          exact ih cg always
        · apply List.sum_nonneg
          intro x hx
          obtain ⟨w, _, rfl⟩ := List.mem_map.mp hx
          exact ih w always
      · exact le_refl 0
    · exact le_refl 0

theorem guideRateSum_nonneg (c : FractionCalculator)
    (hget : ∀ n t v, 0 ≤ c.reg.get n t v)
    (hgetInj : ∀ n p, 0 ≤ c.reg.getInj n p)
    (fuel : ℕ) (g : GroupRec) (always : String) :
    0 ≤ c.guideRateSum fuel g always := by
  unfold FractionCalculator.guideRateSum
  apply add_nonneg
  · apply List.sum_nonneg
    intro x hx
    obtain ⟨cg, _, rfl⟩ := List.mem_map.mp hx
    exact guideRateValue_nonneg c hget hgetInj fuel cg always
  · apply List.sum_nonneg
    intro x hx
    obtain ⟨w, _, rfl⟩ := List.mem_map.mp hx
    exact guideRateValue_nonneg c hget hgetInj fuel w always

theorem guideRateValue_le_guideRateSum (c : FractionCalculator)
    (hget : ∀ n t v, 0 ≤ c.reg.get n t v)
    (hgetInj : ∀ n p, 0 ≤ c.reg.getInj n p)
    (fuel : ℕ) (pg : GroupRec) (name always : String)
    (hmem : (name ∈ pg.childGroups ∧ c.groupIncluded always name = true)
      ∨ (name ∈ pg.wells ∧ c.wellIncluded always name = true)) :
    c.guideRateValue fuel name always ≤ c.guideRateSum fuel pg always := by
  have hnn : ∀ x : ℚ,
      x ∈ (pg.childGroups.filter (c.groupIncluded always)).map
        (fun cg => c.guideRateValue fuel cg always) → 0 ≤ x := by
    intro x hx
    obtain ⟨cg, _, rfl⟩ := List.mem_map.mp hx
    exact guideRateValue_nonneg c hget hgetInj fuel cg always
  have hnn' : ∀ x : ℚ,
      x ∈ (pg.wells.filter (c.wellIncluded always)).map
        (fun w => c.guideRateValue fuel w always) → 0 ≤ x := by
    intro x hx
    obtain ⟨w, _, rfl⟩ := List.mem_map.mp hx
    exact guideRateValue_nonneg c hget hgetInj fuel w always
  unfold FractionCalculator.guideRateSum
  rcases hmem with ⟨hm, hi⟩ | ⟨hm, hi⟩
  · have hx : c.guideRateValue fuel name always ∈
        (pg.childGroups.filter (c.groupIncluded always)).map
          (fun cg => c.guideRateValue fuel cg always) :=
      List.mem_map.mpr ⟨name, List.mem_filter.mpr ⟨hm, hi⟩, rfl⟩
    have h1 := List.single_le_sum hnn _ hx
    have h2 := List.sum_nonneg hnn'
    linarith
  · have hx : c.guideRateValue fuel name always ∈
        (pg.wells.filter (c.wellIncluded always)).map
          (fun w => c.guideRateValue fuel w always) :=
      List.mem_map.mpr ⟨name, List.mem_filter.mpr ⟨hm, hi⟩, rfl⟩
    have h1 := List.single_le_sum hnn' _ hx
    have h2 := List.sum_nonneg hnn
    linarith

theorem guideRateEpsilon_pos : (0 : ℚ) < guideRateEpsilon := by
  unfold guideRateEpsilon
  norm_num

theorem localFraction_bounds (c : FractionCalculator)
    (hget : ∀ n t v, 0 ≤ c.reg.get n t v)
    (hgetInj : ∀ n p, 0 ≤ c.reg.getInj n p)
    (fuel : ℕ) (name always : String)
    (hincl : c.includedInParent always name = true) :
    0 ≤ c.localFraction fuel name always ∧ c.localFraction fuel name always ≤ 1 := by
  unfold FractionCalculator.includedInParent at hincl
  unfold FractionCalculator.localFraction
  cases hpg : c.E.groups (c.parentOf name) with
  | none =>
    rw [hpg] at hincl
    simp at hincl
  | some pg =>
    rw [hpg] at hincl
    simp only [Bool.or_eq_true, Bool.and_eq_true, decide_eq_true_eq] at hincl
    have hmy : 0 ≤ c.guideRateValue fuel name always :=
      guideRateValue_nonneg c hget hgetInj fuel name always
    have hle : c.guideRateValue fuel name always ≤ c.guideRateSum fuel pg always :=
      guideRateValue_le_guideRateSum c hget hgetInj fuel pg name always hincl
    dsimp only
    split
    · next h =>
      have hpos : (0 : ℚ) < c.guideRateSum fuel pg always :=
        lt_trans guideRateEpsilon_pos h
      exact ⟨div_nonneg hmy (le_of_lt hpos), (div_le_one hpos).mpr hle⟩
    · exact ⟨le_refl 0, zero_le_one⟩

theorem fractionLoop_bounds (c : FractionCalculator)
    (hget : ∀ n t v, 0 ≤ c.reg.get n t v)
    (hgetInj : ∀ n p, 0 ≤ c.reg.getInj n p)
    (gfuel : ℕ) (always : String) :
    ∀ lfuel (acc : ℚ) (current controlGroupName : String) (q : ℚ), 0 ≤ acc →
      c.walkIncluded always lfuel current controlGroupName = true →
      c.fractionLoop gfuel always lfuel acc current controlGroupName = some q →
      0 ≤ q ∧ q ≤ acc := by
  intro lfuel
  induction lfuel with
  | zero =>
    intro acc current controlGroupName q hacc hwalk hloop
    simp [FractionCalculator.walkIncluded] at hwalk
  | succ f ih =>
    intro acc current controlGroupName q hacc hwalk hloop
    rw [FractionCalculator.walkIncluded] at hwalk
    rw [FractionCalculator.fractionLoop] at hloop
    by_cases hc : (current == controlGroupName) = true
    · rw [if_pos hc] at hloop
      cases hloop
      exact ⟨hacc, le_refl _⟩
    · rw [if_neg hc] at hloop
      rw [if_neg hc, Bool.and_eq_true] at hwalk
      obtain ⟨hincl, hwalk'⟩ := hwalk
      have hlf := localFraction_bounds c hget hgetInj gfuel current always hincl
      have hacc' : 0 ≤ acc * c.localFraction gfuel current always :=
        mul_nonneg hacc hlf.1
      have hle : acc * c.localFraction gfuel current always ≤ acc :=
        mul_le_of_le_one_right hacc hlf.2
      obtain ⟨hq0, hq⟩ := ih _ _ _ _ hacc' hwalk' hloop
      exact ⟨hq0, le_trans hq hle⟩

/-- C2 (amended): for every well or group name and every ancestor control
group of it, `FractionCalculator::fraction(name, control_group_name,
always_include_this)` returns a value in the closed interval `[0, 1]`,
assuming all individual guide-rate values queried from the guide-rate
registry are non-negative and — as the `assert` in `localFraction` records —
every node the walk passes strictly below the control group is eligible in
its parent's guide-rate sum (equal to the always-included child, or under
`FLD`/`NONE` group control, or a group-controlled well).  `some q` means the
walk up the chain reached the control group within the given fuel. -/
theorem fraction_mem_unitInterval (c : FractionCalculator)
    (hget : ∀ n t v, 0 ≤ c.reg.get n t v)
    (hgetInj : ∀ n p, 0 ≤ c.reg.getInj n p)
    (gfuel lfuel : ℕ) (name controlGroupName : String) (alwaysIncludeThis : Bool) (q : ℚ)
    (hwalk : c.walkIncluded (if alwaysIncludeThis then name else "") lfuel
      name controlGroupName = true)
    (hfrac : c.fraction gfuel lfuel name controlGroupName alwaysIncludeThis = some q) :
    0 ≤ q ∧ q ≤ 1 :=
  fractionLoop_bounds c hget hgetInj gfuel (if alwaysIncludeThis then name else "")
    lfuel 1 name controlGroupName q zero_le_one hwalk hfrac

/-- All registry values of the scenario are non-negative. -/
theorem regScenario_get_nonneg : ∀ n t v, 0 ≤ regScenario.get n t v := by
  intro n t v
  dsimp [regScenario]
  split
  · norm_num
  split
  · norm_num
  · exact le_refl 0

/-- C2 witness: in the FIELD → G1 → `[W1, W2]` scenario the fraction of W1
up to G1 is 3/4, which lies in `[0, 1]`. -/
theorem fraction_mem_unitInterval_witness : 0 ≤ (3/4 : ℚ) ∧ (3/4 : ℚ) ≤ 1 :=
  fraction_mem_unitInterval fcalcScenario regScenario_get_nonneg
    (fun _ _ => le_refl 0) 5 5 "W1" "G1" true (3/4) (by decide)
    (by norm_num +decide [FractionCalculator.fraction, FractionCalculator.fractionLoop,
      FractionCalculator.localFraction, FractionCalculator.guideRateValue,
      FractionCalculator.guideRateSum, FractionCalculator.parentOf,
      FractionCalculator.groupIncluded, FractionCalculator.wellIncluded,
      groupControlledWellsName, getWellRateVector, getGuideRateVector,
      fcalcScenario, envScenario, wsScenario, regScenario, g1Rec, fieldRec,
      puOilOnly, guideRateEpsilon, prodControlsNone])

/-- All registry values of the counterexample are non-negative. -/
theorem regCex_get_nonneg : ∀ n t v, 0 ≤ regCex.get n t v := by
  intro n t v
  dsimp [regCex]
  split
  · norm_num
  split
  · norm_num
  · exact le_refl 0

/-- C2 counterexample: the claim as stated is false.  With every registry
value non-negative (`regCex_get_nonneg`), the fraction of group G — which is
under individual `ORAT` control, so its parent's guide-rate sum excludes it
while its own guide rate is 5 against a sibling sum of 1 — up to its
ancestor control group P evaluates to 5, which is outside `[0, 1]`. -/
theorem fraction_gt_one_counterexample :
    fcalcCex.fraction 5 5 "G" "P" false = some 5 ∧ ¬((5 : ℚ) ≤ 1) := by
  constructor
  · norm_num +decide [FractionCalculator.fraction, FractionCalculator.fractionLoop,
      FractionCalculator.localFraction, FractionCalculator.guideRateValue,
      FractionCalculator.guideRateSum, FractionCalculator.parentOf,
      FractionCalculator.groupIncluded, FractionCalculator.wellIncluded,
      groupControlledWellsName, getWellRateVector, getGuideRateVector,
      fcalcCex, envCex, wsCex, regCex, pRecCex, gRecCex, hRecCex, fieldRec,
      wsScenario, envScenario, puOilOnly, guideRateEpsilon, prodControlsNone]
  · norm_num

/-- C5: if the sum of the guide rates of the eligible siblings at a level is
not above the fixed epsilon `1e-12`, `FractionCalculator::localFraction`
returns exactly 0 instead of performing the division; the division is only
ever performed with a denominator strictly greater than `1e-12`. -/
theorem localFraction_zero_of_small_guideRateSum (c : FractionCalculator)
    (fuel : ℕ) (name always : String) (pg : GroupRec)
    (hpg : c.E.groups (c.parentOf name) = some pg)
    (hsmall : c.guideRateSum fuel pg always ≤ guideRateEpsilon) :
    c.localFraction fuel name always = 0 := by
  unfold FractionCalculator.localFraction
  rw [hpg]
  dsimp only
  rw [if_neg (not_lt.mpr hsmall)]

/-- C5 witness: in the scenario, G1 is under individual control, so FIELD's
eligible-sibling guide-rate sum is 0 ≤ 1e-12 and G1's local fraction is 0. -/
theorem localFraction_zero_of_small_guideRateSum_witness :
    fcalcScenario.localFraction 5 "G1" "" = 0 :=
  localFraction_zero_of_small_guideRateSum fcalcScenario 5 "G1" "" fieldRec
    rfl (by norm_num +decide [FractionCalculator.guideRateSum,
      FractionCalculator.guideRateValue, FractionCalculator.groupIncluded,
      FractionCalculator.wellIncluded, fcalcScenario, wsScenario, fieldRec,
      guideRateEpsilon])

/-- C1: in the two-level tree FIELD → G1 → [W1, W2] with G1 under rate
(`ORAT`) production control with target 100, guide rates 3 (W1) and 1 (W2),
both wells producers under group control with efficiency factors 1, zero
stored group target reduction and zero current rates,
`checkGroupConstraintsProd("W1", "G1", G1, ...)` computes
`target_rate = 75 = (3/4) * 100`.  (The returned scale is `target_rate`
divided by the zero current rate, which is `0` in `ℚ`; the C++ `double`
division would give infinity.  The claim is about `target_rate`.) -/
theorem checkGroupConstraintsProd_scenario :
    checkGroupConstraintsProd envScenario regScenario wsScenario "W1" "G1" [0] [1]
      5 g1Rec 1 = some (.constrained false 0 75) := by
  norm_num +decide [checkGroupConstraintsProd, checkProdAtControl, groupChainTopBot,
    groupChainTopBotLoop, calcModeRateFromRates, prodGroupTarget, prodGuideTargetMode,
    FractionCalculator.localFraction, FractionCalculator.guideRateValue,
    FractionCalculator.guideRateSum, FractionCalculator.parentOf,
    FractionCalculator.groupIncluded, FractionCalculator.wellIncluded,
    groupControlledWellsName, getWellRateVector, getGuideRateVector,
    envScenario, wsScenario, regScenario, g1Rec, fieldRec, puOilOnly,
    guideRateEpsilon, targetRateMin, prodControlsNone, List.range_succ]

/-- Auxiliary for C3, production side: any `constrained` result of
`checkGroupConstraintsProd` carries a target rate of at least 1e-12, because
the target is floored with `max` at the controlling level. -/
theorem checkProd_targetRate_ge_aux (E : Env) (reg : GuideRateReg) (s : WState)
    (name parent : String) (rates resv_coeff : List ℚ) :
    ∀ fuel (group : GroupRec) (eff : ℚ) (v : Bool) (sc tr : ℚ),
      checkGroupConstraintsProd E reg s name parent rates resv_coeff fuel group eff
        = some (.constrained v sc tr) → targetRateMin ≤ tr := by
  intro fuel
  induction fuel with
  | zero =>
    intro g eff v sc tr h
    simp [checkGroupConstraintsProd] at h
  | succ f ih =>
    intro g eff v sc tr h
    rw [checkGroupConstraintsProd] at h
    by_cases h1 : (s.prodCtrl g.name == ProdCMode.FLD
        || s.prodCtrl g.name == ProdCMode.NONE) = true
    · rw [if_pos h1] at h
      by_cases h2 : (!g.productionGroupControlAvailable) = true
      · rw [if_pos h2] at h
        simp at h
      · rw [if_neg h2] at h
        cases hpg : E.groups g.parent with
        | none => rw [hpg] at h; simp at h
        | some pg => rw [hpg] at h; exact ih pg _ v sc tr h
    · rw [if_neg h1] at h
      by_cases h3 : (!g.isProductionGroup) = true
      · rw [if_pos h3] at h
        simp at h
      · rw [if_neg h3] at h
        unfold checkProdAtControl at h
        dsimp only at h
        cases hch : groupChainTopBot E name g.name (f+1) with
        | none => rw [hch] at h; simp at h
        | some chain =>
          rw [hch] at h
          dsimp only at h
          have := (Option.some.inj h)
          have htr := congrArg (fun r => match r with
            | CheckResult.unconstrained => (0 : ℚ)
            | CheckResult.constrained _ _ t => t) this
          dsimp at htr
          rw [← htr]
          exact le_max_left _ _

/-- Auxiliary for C3, injection side. -/
theorem checkInj_targetRate_ge_aux (E : Env) (reg : GuideRateReg) (s : WState)
    (name parent : String) (rates resv_coeff : List ℚ) (iphase : Phase) :
    ∀ fuel (group : GroupRec) (eff : ℚ) (v : Bool) (sc tr : ℚ),
      checkGroupConstraintsInj E reg s name parent rates resv_coeff iphase fuel group eff
        = some (.constrained v sc tr) → targetRateMin ≤ tr := by
  intro fuel
  induction fuel with
  | zero =>
    intro g eff v sc tr h
    simp [checkGroupConstraintsInj] at h
  | succ f ih =>
    intro g eff v sc tr h
    rw [checkGroupConstraintsInj] at h
    by_cases h1 : (s.injCtrl iphase g.name == InjCMode.FLD
        || s.injCtrl iphase g.name == InjCMode.NONE) = true
    · rw [if_pos h1] at h
      by_cases h2 : (!g.injectionGroupControlAvailable iphase) = true
      · rw [if_pos h2] at h
        simp at h
      · rw [if_neg h2] at h
        cases hpg : E.groups g.parent with
        | none => rw [hpg] at h; simp at h
        | some pg => rw [hpg] at h; exact ih pg _ v sc tr h
    · rw [if_neg h1] at h
      by_cases h3 : (!g.isInjectionGroup) = true
      · rw [if_pos h3] at h
        simp at h
      · rw [if_neg h3] at h
        unfold checkInjAtControl at h
        dsimp only at h
        cases hch : groupChainTopBot E name g.name (f+1) with
        | none => rw [hch] at h; simp at h
        | some chain =>
          rw [hch] at h
          dsimp only at h
          have := (Option.some.inj h)
          have htr := congrArg (fun r => match r with
            | CheckResult.unconstrained => (0 : ℚ)
            | CheckResult.constrained _ _ t => t) this
          dsimp at htr
          rw [← htr]
          exact le_max_left _ _

/-- C3: on every input on which `checkGroupConstraintsProd` or
`checkGroupConstraintsInj` reaches the controlling ancestor (returns a
`constrained` result instead of an early "unconstrained" one), the computed
`target_rate` used in the returned pair is at least 1e-12, regardless of the
accumulated reductions. -/
theorem checkGroupConstraints_targetRate_floor (E : Env) (reg : GuideRateReg)
    (s : WState) (name parent : String) (rates resv_coeff : List ℚ)
    (iphase : Phase) (fuel : ℕ) (group : GroupRec) (eff : ℚ) (v : Bool) (sc tr : ℚ) :
    (checkGroupConstraintsProd E reg s name parent rates resv_coeff fuel group eff
        = some (.constrained v sc tr) → targetRateMin ≤ tr)
    ∧ (checkGroupConstraintsInj E reg s name parent rates resv_coeff iphase fuel group eff
        = some (.constrained v sc tr) → targetRateMin ≤ tr) :=
  ⟨checkProd_targetRate_ge_aux E reg s name parent rates resv_coeff fuel group eff v sc tr,
   checkInj_targetRate_ge_aux E reg s name parent rates resv_coeff iphase fuel group eff v sc tr⟩

/-- C3 witness: the production scenario reaches its controlling group with
target rate 75 ≥ 1e-12, and the injection scenario (GI under gas `RATE`
control, target 50, well WI with guide rate 2) with target rate 50 ≥ 1e-12. -/
theorem checkGroupConstraints_targetRate_floor_witness :
    targetRateMin ≤ (75 : ℚ) ∧ targetRateMin ≤ (50 : ℚ) :=
  ⟨(checkGroupConstraints_targetRate_floor envScenario regScenario wsScenario
      "W1" "G1" [0] [1] .OIL 5 g1Rec 1 false 0 75).1
      (by norm_num +decide [checkGroupConstraintsProd, checkProdAtControl,
        groupChainTopBot, groupChainTopBotLoop, calcModeRateFromRates,
        prodGroupTarget, prodGuideTargetMode, FractionCalculator.localFraction,
        FractionCalculator.guideRateValue, FractionCalculator.guideRateSum,
        FractionCalculator.parentOf, FractionCalculator.groupIncluded,
        FractionCalculator.wellIncluded, groupControlledWellsName,
        getWellRateVector, getGuideRateVector, envScenario, wsScenario,
        regScenario, g1Rec, fieldRec, puOilOnly, guideRateEpsilon,
        targetRateMin, prodControlsNone, List.range_succ]),
   (checkGroupConstraints_targetRate_floor envInj regInj wsInj
      "WI" "GI" [0] [1] .GAS 5 giRec 1 false 0 50).2
      (by norm_num +decide [checkGroupConstraintsInj, checkInjAtControl,
        groupChainTopBot, groupChainTopBotLoop, injCalcModeRateFromRates,
        injGroupTarget, injGuideTargetMode, FractionCalculator.localFraction,
        FractionCalculator.guideRateValue, FractionCalculator.guideRateSum,
        FractionCalculator.parentOf, FractionCalculator.groupIncluded,
        FractionCalculator.wellIncluded, groupControlledWellsName,
        getWellRateVector, getGuideRateVector, envInj, wsInj, regInj, giRec,
        envScenario, wsScenario, regScenario, fieldRec, puOilOnly,
        guideRateEpsilon, targetRateMin, injControlsNone, List.range_succ])⟩

/-- Auxiliary for C6, production side. -/
theorem checkProd_unconstrained_aux (E : Env) (reg : GuideRateReg) (s : WState)
    (name parent : String) (rates resv_coeff : List ℚ) :
    ∀ (n : ℕ) (g : GroupRec), UnconstrainedChainProd E s n g →
      ∀ (fuel : ℕ) (eff : ℚ), n < fuel →
        checkGroupConstraintsProd E reg s name parent rates resv_coeff fuel g eff
          = some .unconstrained := by
  intro n g hchain
  induction hchain with
  | base g hctrl havail =>
    intro fuel eff hlt
    obtain ⟨f, rfl⟩ : ∃ f, fuel = f + 1 := ⟨fuel - 1, by omega⟩
    rw [checkGroupConstraintsProd]
    rw [if_pos (by rcases hctrl with h | h <;> simp [h]),
      if_pos (by simp [havail])]
  | step g pg n hctrl havail hpg _ ih =>
    intro fuel eff hlt
    obtain ⟨f, rfl⟩ : ∃ f, fuel = f + 1 := ⟨fuel - 1, by omega⟩
    rw [checkGroupConstraintsProd]
    rw [if_pos (by rcases hctrl with h | h <;> simp [h]),
      if_neg (by simp [havail]), hpg]
    exact ih f (eff * g.efficiency) (by omega)

/-- Auxiliary for C6, injection side. -/
theorem checkInj_unconstrained_aux (E : Env) (reg : GuideRateReg) (s : WState)
    (name parent : String) (rates resv_coeff : List ℚ) (iphase : Phase) :
    ∀ (n : ℕ) (g : GroupRec), UnconstrainedChainInj E s iphase n g →
      ∀ (fuel : ℕ) (eff : ℚ), n < fuel →
        checkGroupConstraintsInj E reg s name parent rates resv_coeff iphase fuel g eff
          = some .unconstrained := by
  intro n g hchain
  induction hchain with
  | base g hctrl havail =>
    intro fuel eff hlt
    obtain ⟨f, rfl⟩ : ∃ f, fuel = f + 1 := ⟨fuel - 1, by omega⟩
    rw [checkGroupConstraintsInj]
    rw [if_pos (by rcases hctrl with h | h <;> simp [h]),
      if_pos (by simp [havail])]
  | step g pg n hctrl havail hpg _ ih =>
    intro fuel eff hlt
    obtain ⟨f, rfl⟩ : ∃ f, fuel = f + 1 := ⟨fuel - 1, by omega⟩
    rw [checkGroupConstraintsInj]
    rw [if_pos (by rcases hctrl with h | h <;> simp [h]),
      if_neg (by simp [havail]), hpg]
    exact ih f (eff * g.efficiency) (by omega)

/-- C6: if the group passed to `checkGroupConstraintsProd` (respectively
`checkGroupConstraintsInj`) is under `FLD` or `NONE` control, and the same
holds up the ancestor chain until a group whose group control is not
available for that role/phase, the checker returns "unconstrained", i.e. the
pair `(false, 1)`, without computing any target. -/
theorem checkGroupConstraints_unconstrained (E : Env) (reg : GuideRateReg)
    (s : WState) (name parent : String) (rates resv_coeff : List ℚ) (iphase : Phase) :
    (∀ (n fuel : ℕ) (g : GroupRec) (eff : ℚ), n < fuel →
      UnconstrainedChainProd E s n g →
      checkGroupConstraintsProd E reg s name parent rates resv_coeff fuel g eff
        = some .unconstrained)
    ∧ (∀ (n fuel : ℕ) (g : GroupRec) (eff : ℚ), n < fuel →
      UnconstrainedChainInj E s iphase n g →
      checkGroupConstraintsInj E reg s name parent rates resv_coeff iphase fuel g eff
        = some .unconstrained)
    ∧ CheckResult.unconstrained.toPair = (false, 1) :=
  ⟨fun n fuel g eff hlt hchain =>
      checkProd_unconstrained_aux E reg s name parent rates resv_coeff n g hchain fuel eff hlt,
   fun n fuel g eff hlt hchain =>
      checkInj_unconstrained_aux E reg s name parent rates resv_coeff iphase n g hchain fuel eff hlt,
   rfl⟩

/-- C6 witness: in the counterexample tree, H (`FLD`) → P (`NONE`) → FIELD
(`NONE`, group control unavailable) yields "unconstrained" for production,
and H itself (injection control `NONE`, unavailable) for gas injection. -/
theorem checkGroupConstraints_unconstrained_witness :
    checkGroupConstraintsProd envCex regCex wsCex "V" "H" [0] [1] 3 hRecCex 1
      = some .unconstrained
    ∧ checkGroupConstraintsInj envCex regCex wsCex "V" "H" [0] [1] .GAS 1 hRecCex 1
      = some .unconstrained := by
  constructor
  · exact (checkGroupConstraints_unconstrained envCex regCex wsCex "V" "H" [0] [1] .GAS).1
      2 3 hRecCex 1 (by omega)
      (.step hRecCex pRecCex 1 (Or.inl (by decide)) (by decide) rfl
        (.step pRecCex { fieldRec with childGroups := ["P"] } 0
          (Or.inr (by decide)) (by decide) rfl
          (.base _ (Or.inr (by decide)) (by decide))))
  · exact ((checkGroupConstraints_unconstrained envCex regCex wsCex "V" "H" [0] [1] .GAS).2).1
      0 1 hRecCex 1 (by omega)
      (.base _ (Or.inr (by decide)) (by decide))

mutual

/-- C4 auxiliary: the recursive sum evaluates to the flat sum over all wells
of the tree weighted by the ancestor-chain efficiency product. -/
theorem sumWellPhaseRates_eq_flat (E : Env) (rates : String → List ℚ)
    (phasePos : ℕ) (injector : Bool) :
    ∀ t : GroupTree, sumWellPhaseRates E rates phasePos injector t
      = ((treeWellsEff t).map
          (fun p => p.2 * wellPhaseContribution E rates phasePos injector p.1)).sum
  | .node d cs => by
    rw [sumWellPhaseRates, treeWellsEff,
      sumWellPhaseRatesList_eq_flat E rates phasePos injector cs]
    rw [List.map_append, List.sum_append, List.map_map, List.map_map]
    have h1 : ((d.wells.map
        (fun w => (w, d.efficiency))).map
          (fun p : String × ℚ => p.2 * wellPhaseContribution E rates phasePos injector p.1)).sum
        = d.efficiency * (d.wells.map (wellPhaseContribution E rates phasePos injector)).sum := by
      rw [List.map_map]
      exact List.sum_map_mul_left _ _ _
    rw [List.map_map] at h1
    rw [h1]
    have h2 : (((treeWellsEffList cs).map (fun p : String × ℚ => (p.1, d.efficiency * p.2))).map
        (fun p : String × ℚ => p.2 * wellPhaseContribution E rates phasePos injector p.1)).sum
        = d.efficiency * ((treeWellsEffList cs).map
            (fun p : String × ℚ => p.2 * wellPhaseContribution E rates phasePos injector p.1)).sum := by
      rw [List.map_map]
      have : ((fun p : String × ℚ => p.2 * wellPhaseContribution E rates phasePos injector p.1)
          ∘ fun p : String × ℚ => (p.1, d.efficiency * p.2))
          = fun p : String × ℚ =>
            d.efficiency * (p.2 * wellPhaseContribution E rates phasePos injector p.1) := by
        funext p
        simp [Function.comp]
        ring
      rw [this]
      exact List.sum_map_mul_left _ _ _
    rw [List.map_map] at h2
    rw [h2]
    ring

/-- C4 auxiliary, list version. -/
theorem sumWellPhaseRatesList_eq_flat (E : Env) (rates : String → List ℚ)
    (phasePos : ℕ) (injector : Bool) :
    ∀ cs : List GroupTree, sumWellPhaseRatesList E rates phasePos injector cs
      = ((treeWellsEffList cs).map
          (fun p => p.2 * wellPhaseContribution E rates phasePos injector p.1)).sum
  | [] => by rw [sumWellPhaseRatesList, treeWellsEffList]; rfl
  | c :: rest => by
    rw [sumWellPhaseRatesList, treeWellsEffList, List.map_append, List.sum_append,
      sumWellPhaseRates_eq_flat E rates phasePos injector c,
      sumWellPhaseRatesList_eq_flat E rates phasePos injector rest]

end

/-- C4: for every acyclic group tree, phase position and role,
`sumWellRates` at the root equals the flat sum, over all wells of the tree,
of the well's contribution (its sign-normalized phase rate times its own
efficiency factor, zero if the well does not match the role, is shut, is
missing from the well-state map or is not owned by this process) multiplied
by the product of the group efficiency factors of every group on the well's
ancestor chain, each applied exactly once. -/
theorem sumWellRates_eq_flat_sum (E : Env) (s : WState) (phasePos : ℕ)
    (injector : Bool) (t : GroupTree) :
    sumWellRates E s phasePos injector t
      = ((treeWellsEff t).map
          (fun p => p.2 * wellPhaseContribution E s.wellRates phasePos injector p.1)).sum :=
  sumWellPhaseRates_eq_flat E s.wellRates phasePos injector t

/-- C7 auxiliary: the phase loop succeeds when no applicable phase has the
`RESV` guide-rate target, and throws the message naming the group when one
does. -/
theorem updateGuideRatesInjPhases_spec (E : Env) (s : WState) (d : GroupData) :
    ∀ (phases : List Phase) (acc : List (String × Phase × ℚ)),
      (phases.any (fun ph => d.hasInjectionControl ph
          && (d.injGuideRateDef ph == .RESV)) = false →
        ∃ out, updateGuideRatesInjPhases E s d phases acc = .ok out)
      ∧ (phases.any (fun ph => d.hasInjectionControl ph
          && (d.injGuideRateDef ph == .RESV)) = true →
        updateGuideRatesInjPhases E s d phases acc = .error (resvMsg d.name)) := by
  intro phases
  induction phases with
  | nil =>
    intro acc
    constructor
    · intro _
      exact ⟨acc, rfl⟩
    · intro h
      simp at h
  | cons ph rest ih =>
    intro acc
    constructor
    · intro h
      simp only [List.any_cons, Bool.or_eq_false_iff] at h
      rw [updateGuideRatesInjPhases]
      by_cases hc : (!d.hasInjectionControl ph) = true
      · rw [if_pos hc]
        exact (ih acc).1 h.2
      · rw [if_neg hc]
        have hno : (d.injGuideRateDef ph == GuideRateInjTarget.RESV) = false := by
          rcases hib : d.hasInjectionControl ph
          · simp [hib] at hc
          · have := h.1
            rw [hib] at this
            simpa using this
        cases hval : injGuideRateValuePhase E s d ph with
        | error e =>
          exfalso
          unfold injGuideRateValuePhase at hval
          rcases hgd : d.injGuideRateDef ph <;> rw [hgd] at hval <;> simp at hval
          rw [hgd] at hno
          simp at hno
        | ok v =>
          exact (ih _).1 h.2
    · intro h
      simp only [List.any_cons, Bool.or_eq_true] at h
      rw [updateGuideRatesInjPhases]
      rcases h with h | h
      · have hctrl : d.hasInjectionControl ph = true := by
          cases hib : d.hasInjectionControl ph
          · rw [hib] at h; simp at h
          · rfl
        have hresv : d.injGuideRateDef ph = .RESV := by
          rw [hctrl] at h
          simpa using h
        rw [if_neg (by simp [hctrl])]
        have : injGuideRateValuePhase E s d ph = .error (resvMsg d.name) := by
          unfold injGuideRateValuePhase
          rw [hresv]
        rw [this]
      · by_cases hc : (!d.hasInjectionControl ph) = true
        · rw [if_pos hc]
          exact (ih acc).2 h
        · rw [if_neg hc]
          cases hval : injGuideRateValuePhase E s d ph with
          | error e =>
            unfold injGuideRateValuePhase at hval
            rcases hgd : d.injGuideRateDef ph <;> rw [hgd] at hval <;> simp at hval
            rw [← hval]
          | ok v =>
            exact (ih _).2 h

mutual

/-- C7 auxiliary, tree part: success without `RESV`, error naming some
offending group with `RESV`. -/
theorem updateGuideRatesForInjectionGroups_spec_aux (E : Env) (s : WState) :
    ∀ (t : GroupTree) (acc : List (String × Phase × ℚ)),
      (treeHasRESV t = false →
        ∃ out, updateGuideRatesForInjectionGroups E s t acc = .ok out)
      ∧ (treeHasRESV t = true →
        ∃ g, g ∈ resvGroups t
          ∧ updateGuideRatesForInjectionGroups E s t acc = .error (resvMsg g))
  | .node d cs, acc => by
    have ihl := updateGuideRatesForInjectionGroupsList_spec_aux E s cs
    constructor
    · intro h
      rw [treeHasRESV, Bool.or_eq_false_iff] at h
      rw [updateGuideRatesForInjectionGroups]
      obtain ⟨out1, hout1⟩ := (ihl acc).1 h.1
      rw [hout1]
      exact (updateGuideRatesInjPhases_spec E s d allPhases out1).1 h.2
    · intro h
      rw [treeHasRESV, Bool.or_eq_true] at h
      rw [updateGuideRatesForInjectionGroups]
      by_cases hl : treeHasRESVList cs = true
      · obtain ⟨g, hg, herr⟩ := (ihl acc).2 hl
        refine ⟨g, ?_, ?_⟩
        · rw [resvGroups]
          exact List.mem_append.mpr (Or.inl hg)
        · rw [herr]
      · have hd : d.hasRESVTarget = true := by
          rcases h with h | h
          · exact absurd h hl
          · exact h
        obtain ⟨out1, hout1⟩ := (ihl acc).1 (by simpa using hl)
        rw [hout1]
        refine ⟨d.name, ?_, ?_⟩
        · rw [resvGroups, hd]
          simp
        · exact (updateGuideRatesInjPhases_spec E s d allPhases out1).2 hd

/-- C7 auxiliary, list part. -/
theorem updateGuideRatesForInjectionGroupsList_spec_aux (E : Env) (s : WState) :
    ∀ (cs : List GroupTree) (acc : List (String × Phase × ℚ)),
      (treeHasRESVList cs = false →
        ∃ out, updateGuideRatesForInjectionGroupsList E s cs acc = .ok out)
      ∧ (treeHasRESVList cs = true →
        ∃ g, g ∈ resvGroupsList cs
          ∧ updateGuideRatesForInjectionGroupsList E s cs acc = .error (resvMsg g))
  | [], acc => by
    constructor
    · intro _
      exact ⟨acc, rfl⟩
    · intro h
      rw [treeHasRESVList] at h
      cases h
  | c :: rest, acc => by
    have iht := updateGuideRatesForInjectionGroups_spec_aux E s c
    have ihl := updateGuideRatesForInjectionGroupsList_spec_aux E s rest
    constructor
    · intro h
      rw [treeHasRESVList, Bool.or_eq_false_iff] at h
      rw [updateGuideRatesForInjectionGroupsList]
      obtain ⟨out1, hout1⟩ := (iht acc).1 h.1
      rw [hout1]
      exact (ihl out1).1 h.2
    · intro h
      rw [treeHasRESVList, Bool.or_eq_true] at h
      rw [updateGuideRatesForInjectionGroupsList]
      by_cases hc : treeHasRESV c = true
      · obtain ⟨g, hg, herr⟩ := (iht acc).2 hc
        rw [herr]
        exact ⟨g, by rw [resvGroupsList]; exact List.mem_append.mpr (Or.inl hg), rfl⟩
      · obtain ⟨out1, hout1⟩ := (iht acc).1 (by simpa using hc)
        rw [hout1]
        have hrest : treeHasRESVList rest = true := by
          rcases h with h | h
          · exact absurd h hc
          · exact h
        obtain ⟨g, hg, herr⟩ := (ihl out1).2 hrest
        exact ⟨g, by rw [resvGroupsList]; exact List.mem_append.mpr (Or.inr hg), herr⟩

end

/-- C7: `updateGuideRatesForInjectionGroups` signals a fatal error whose
message contains the offending group's name whenever some group in the tree
declares the `RESV` guide-rate target for a phase it has injection control
for, and completes without throwing for every other supported guide-rate
target. -/
theorem updateGuideRatesForInjectionGroups_resv_fatal (E : Env) (s : WState)
    (t : GroupTree) (acc : List (String × Phase × ℚ)) :
    (treeHasRESV t = false →
      ∃ out, updateGuideRatesForInjectionGroups E s t acc = .ok out)
    ∧ (treeHasRESV t = true →
      ∃ g, g ∈ resvGroups t
        ∧ updateGuideRatesForInjectionGroups E s t acc
            = .error ("GUIDE PHASE RESV not implemented. Group " ++ g)) :=
  updateGuideRatesForInjectionGroups_spec_aux E s t acc

/-- C7 witness: a tree without a `RESV` target completes, a tree with one
throws the descriptive message naming the group. -/
theorem updateGuideRatesForInjectionGroups_resv_fatal_witness :
    (∃ out, updateGuideRatesForInjectionGroups envScenario wsScenario
      (.node giDataOk []) [] = .ok out)
    ∧ (∃ g, g ∈ resvGroups (.node giDataResv [])
        ∧ updateGuideRatesForInjectionGroups envScenario wsScenario
            (.node giDataResv []) []
            = .error ("GUIDE PHASE RESV not implemented. Group " ++ g)) :=
  ⟨(updateGuideRatesForInjectionGroups_resv_fatal envScenario wsScenario
      (.node giDataOk []) []).1 (by decide),
   (updateGuideRatesForInjectionGroups_resv_fatal envScenario wsScenario
      (.node giDataResv []) []).2 (by decide)⟩

theorem setInjGroupControl_injDef_mono (s : WState) (ph : Phase) (g : String)
    (v : InjCMode) (p : Phase) (n : String)
    (h : s.injCtrlDefined p n = true) :
    (s.setInjGroupControl ph g v).injCtrlDefined p n = true := by
  unfold WState.setInjGroupControl
  dsimp only
  split
  · rfl
  · exact h

theorem setInjGroupControl_prodDef (s : WState) (ph : Phase) (g : String)
    (v : InjCMode) :
    (s.setInjGroupControl ph g v).prodCtrlDefined = s.prodCtrlDefined := rfl

theorem setProdGroupControl_prodDef_mono (s : WState) (g : String)
    (v : ProdCMode) (n : String) (h : s.prodCtrlDefined n = true) :
    (s.setProdGroupControl g v).prodCtrlDefined n = true := by
  unfold WState.setProdGroupControl
  dsimp only
  split
  · rfl
  · exact h

theorem setProdGroupControl_injDef (s : WState) (g : String) (v : ProdCMode) :
    (s.setProdGroupControl g v).injCtrlDefined = s.injCtrlDefined := rfl

theorem setInjGroupControl_injDef_self (s : WState) (ph : Phase) (g : String)
    (v : InjCMode) :
    (s.setInjGroupControl ph g v).injCtrlDefined ph g = true := by
  unfold WState.setInjGroupControl
  dsimp only
  rw [if_pos ⟨rfl, rfl⟩]

theorem setProdGroupControl_prodDef_self (s : WState) (g : String)
    (v : ProdCMode) :
    (s.setProdGroupControl g v).prodCtrlDefined g = true := by
  unfold WState.setProdGroupControl
  dsimp only
  rw [if_pos rfl]

/-- Preservation of defined injection-control flags by a fold of steps that
are each either the identity or a `setInjGroupControl`. -/
theorem foldl_injStep_injDef_mono (d : GroupData) (f : WState → Phase → WState)
    (hf : ∀ st ph p n, st.injCtrlDefined p n = true →
      (f st ph).injCtrlDefined p n = true) :
    ∀ (phs : List Phase) (st : WState) (p : Phase) (n : String),
      st.injCtrlDefined p n = true →
      (phs.foldl f st).injCtrlDefined p n = true := by
  intro phs
  induction phs with
  | nil => intro st p n h; exact h
  | cons ph rest ih =>
    intro st p n h
    exact ih (f st ph) p n (hf st ph p n h)

/-- The default-`NONE` phase loop defines the injection control of `d` for
every phase it visits. -/
theorem defaultInjFold_defines (d : GroupData) :
    ∀ (phs : List Phase) (st : WState) (p : Phase), p ∈ phs →
      ((phs.foldl (fun st ph =>
          if !(st.injCtrlDefined ph d.name) then st.setInjGroupControl ph d.name .NONE
          else st) st).injCtrlDefined p d.name) = true := by
  intro phs
  induction phs with
  | nil => intro st p h; cases h
  | cons ph rest ih =>
    intro st p hp
    have hstep : ∀ (st : WState) (ph p : Phase) (n : String),
        st.injCtrlDefined p n = true →
        ((if !(st.injCtrlDefined ph d.name) then st.setInjGroupControl ph d.name .NONE
          else st).injCtrlDefined p n) = true := by
      intro st ph p n h
      split
      · exact setInjGroupControl_injDef_mono st ph d.name .NONE p n h
      · exact h
    rcases List.mem_cons.mp hp with rfl | hp'
    · rw [List.foldl_cons]
      apply foldl_injStep_injDef_mono d _ (fun st ph p n h => hstep st ph p n h) rest
      by_cases hdef : (!(st.injCtrlDefined p d.name)) = true
      · rw [if_pos hdef]
        exact setInjGroupControl_injDef_self st p d.name .NONE
      · rw [if_neg hdef]
        simpa using hdef
    · rw [List.foldl_cons]
      exact ih _ p hp'

theorem defaultInjNone_injDef_mono (d : GroupData) (s : WState) (p : Phase)
    (n : String) (h : s.injCtrlDefined p n = true) :
    (defaultInjNone d s).injCtrlDefined p n = true := by
  unfold defaultInjNone
  apply foldl_injStep_injDef_mono d _ ?_ allPhases s p n h
  intro st ph p n h
  split
  · exact setInjGroupControl_injDef_mono st ph d.name .NONE p n h
  · exact h

theorem defaultInjNone_defines (d : GroupData) (s : WState) (p : Phase) :
    (defaultInjNone d s).injCtrlDefined p d.name = true := by
  unfold defaultInjNone
  exact defaultInjFold_defines d allPhases s p (by cases p <;> decide)

theorem defaultInjNone_prodDef (d : GroupData) (s : WState) :
    (defaultInjNone d s).prodCtrlDefined = s.prodCtrlDefined := by
  unfold defaultInjNone allPhases
  rw [List.foldl_cons, List.foldl_cons, List.foldl_cons, List.foldl_nil]
  have h : ∀ (st : WState) (ph : Phase),
      ((if !(st.injCtrlDefined ph d.name) then st.setInjGroupControl ph d.name .NONE
        else st).prodCtrlDefined) = st.prodCtrlDefined := by
    intro st ph
    split
    · rfl
    · rfl
  rw [h, h, h]

theorem defaultProdNone_injDef (gs : GroupStateModel) (d : GroupData)
    (s : WState) :
    (defaultProdNone gs d s).injCtrlDefined = s.injCtrlDefined := by
  unfold defaultProdNone
  split
  · rfl
  · rfl

theorem defaultProdNone_prodDef_mono (gs : GroupStateModel) (d : GroupData)
    (s : WState) (n : String) (h : s.prodCtrlDefined n = true) :
    (defaultProdNone gs d s).prodCtrlDefined n = true := by
  unfold defaultProdNone
  split
  · exact setProdGroupControl_prodDef_mono s d.name .NONE n h
  · exact h

theorem defaultProdNone_defines (gs : GroupStateModel) (d : GroupData)
    (s : WState) (h : gs.has_production_control d.name = false) :
    (defaultProdNone gs d s).prodCtrlDefined d.name = true := by
  unfold defaultProdNone
  rw [if_pos (by simp [h])]
  exact setProdGroupControl_prodDef_self s d.name .NONE

theorem applyInjEvent_injDef_mono (E : Env) (d : GroupData) (s : WState)
    (p : Phase) (n : String) (h : s.injCtrlDefined p n = true) :
    (applyInjEvent E d s).injCtrlDefined p n = true := by
  unfold applyInjEvent
  split
  · apply foldl_injStep_injDef_mono d _ ?_ allPhases s p n h
    intro st ph p n h
    split
    · exact h
    · exact setInjGroupControl_injDef_mono st ph d.name _ p n h
  · exact h

theorem applyInjEvent_prodDef (E : Env) (d : GroupData) (s : WState) :
    (applyInjEvent E d s).prodCtrlDefined = s.prodCtrlDefined := by
  unfold applyInjEvent
  split
  · unfold allPhases
    rw [List.foldl_cons, List.foldl_cons, List.foldl_cons, List.foldl_nil]
    have h : ∀ (st : WState) (ph : Phase),
        ((if !(d.hasInjectionControl ph) then st
          else st.setInjGroupControl ph d.name (d.injCmode ph)).prodCtrlDefined)
          = st.prodCtrlDefined := by
      intro st ph
      split
      · rfl
      · rfl
    rw [h, h, h]
  · rfl

theorem applyProdEvent_injDef (E : Env) (d : GroupData) (s : WState) :
    (applyProdEvent E d s).injCtrlDefined = s.injCtrlDefined := by
  unfold applyProdEvent
  split
  · rfl
  · rfl

theorem applyProdEvent_prodDef_mono (E : Env) (d : GroupData) (s : WState)
    (n : String) (h : s.prodCtrlDefined n = true) :
    (applyProdEvent E d s).prodCtrlDefined n = true := by
  unfold applyProdEvent
  split
  · exact setProdGroupControl_prodDef_mono s d.name _ n h
  · exact h

theorem applyGconsale_injDef_mono (E : Env) (d : GroupData) (s : WState)
    (p : Phase) (n : String) (h : s.injCtrlDefined p n = true) :
    (applyGconsale E d s).injCtrlDefined p n = true := by
  unfold applyGconsale
  split
  · exact setInjGroupControl_injDef_mono s Phase.GAS d.name .SALE p n h
  · exact h

theorem applyGconsale_prodDef (E : Env) (d : GroupData) (s : WState) :
    (applyGconsale E d s).prodCtrlDefined = s.prodCtrlDefined := by
  unfold applyGconsale
  split
  · rfl
  · rfl

theorem setCmodeGroupOwn_injDef_mono (E : Env) (gs : GroupStateModel)
    (d : GroupData) (s : WState) (p : Phase) (n : String)
    (h : s.injCtrlDefined p n = true) :
    (setCmodeGroupOwn E gs d s).injCtrlDefined p n = true := by
  unfold setCmodeGroupOwn
  apply applyGconsale_injDef_mono
  rw [applyProdEvent_injDef]
  apply applyInjEvent_injDef_mono
  rw [defaultProdNone_injDef]
  exact defaultInjNone_injDef_mono d s p n h

theorem setCmodeGroupOwn_injDef_defines (E : Env) (gs : GroupStateModel)
    (d : GroupData) (s : WState) (p : Phase) :
    (setCmodeGroupOwn E gs d s).injCtrlDefined p d.name = true := by
  unfold setCmodeGroupOwn
  apply applyGconsale_injDef_mono
  rw [applyProdEvent_injDef]
  apply applyInjEvent_injDef_mono
  rw [defaultProdNone_injDef]
  exact defaultInjNone_defines d s p

theorem setCmodeGroupOwn_prodDef_mono (E : Env) (gs : GroupStateModel)
    (d : GroupData) (s : WState) (n : String)
    (h : s.prodCtrlDefined n = true) :
    (setCmodeGroupOwn E gs d s).prodCtrlDefined n = true := by
  unfold setCmodeGroupOwn
  rw [applyGconsale_prodDef]
  apply applyProdEvent_prodDef_mono
  rw [applyInjEvent_prodDef]
  apply defaultProdNone_prodDef_mono
  rw [defaultInjNone_prodDef]
  exact h

theorem setCmodeGroupOwn_prodDef_defines (E : Env) (gs : GroupStateModel)
    (d : GroupData) (s : WState)
    (h : gs.has_production_control d.name = false) :
    (setCmodeGroupOwn E gs d s).prodCtrlDefined d.name = true := by
  unfold setCmodeGroupOwn
  rw [applyGconsale_prodDef]
  apply applyProdEvent_prodDef_mono
  rw [applyInjEvent_prodDef]
  exact defaultProdNone_defines gs d _ h

mutual

/-- `setCmodeGroup` preserves defined control flags (it only adds entries,
never removes them). -/
theorem setCmodeGroup_mono (E : Env) (gs : GroupStateModel) :
    ∀ (t : GroupTree) (s : WState),
      (∀ (p : Phase) (n : String), s.injCtrlDefined p n = true →
        (setCmodeGroup E gs t s).injCtrlDefined p n = true)
      ∧ (∀ n : String, s.prodCtrlDefined n = true →
        (setCmodeGroup E gs t s).prodCtrlDefined n = true)
  | .node d cs, s => by
    have ihl := setCmodeGroupList_mono E gs cs s
    rw [setCmodeGroup]
    constructor
    · intro p n h
      exact setCmodeGroupOwn_injDef_mono E gs d _ p n (ihl.1 p n h)
    · intro n h
      exact setCmodeGroupOwn_prodDef_mono E gs d _ n (ihl.2 n h)

/-- `setCmodeGroupList` preserves defined control flags. -/
theorem setCmodeGroupList_mono (E : Env) (gs : GroupStateModel) :
    ∀ (cs : List GroupTree) (s : WState),
      (∀ (p : Phase) (n : String), s.injCtrlDefined p n = true →
        (setCmodeGroupList E gs cs s).injCtrlDefined p n = true)
      ∧ (∀ n : String, s.prodCtrlDefined n = true →
        (setCmodeGroupList E gs cs s).prodCtrlDefined n = true)
  | [], s => by
    rw [setCmodeGroupList]
    exact ⟨fun _ _ h => h, fun _ h => h⟩
  | c :: rest, s => by
    have iht := setCmodeGroup_mono E gs c s
    have ihl := setCmodeGroupList_mono E gs rest (setCmodeGroup E gs c s)
    rw [setCmodeGroupList]
    constructor
    · intro p n h
      exact ihl.1 p n (iht.1 p n h)
    · intro n h
      exact ihl.2 n (iht.2 n h)

end

mutual

/-- C10 auxiliary, tree part: after `setCmodeGroup`, every group of the
subtree has all three injection controls defined, and a defined production
control provided the group-state object reported none for it. -/
theorem setCmodeGroup_defines_aux (E : Env) (gs : GroupStateModel) :
    ∀ (t : GroupTree) (s : WState) (g : String), g ∈ treeNames t →
      (∀ p : Phase, (setCmodeGroup E gs t s).injCtrlDefined p g = true)
      ∧ (gs.has_production_control g = false →
        (setCmodeGroup E gs t s).prodCtrlDefined g = true)
  | .node d cs, s, g, hg => by
    rw [treeNames] at hg
    rw [setCmodeGroup]
    rcases List.mem_cons.mp hg with rfl | hg'
    · exact ⟨fun p => setCmodeGroupOwn_injDef_defines E gs d _ p,
        fun h => setCmodeGroupOwn_prodDef_defines E gs d _ h⟩
    · have ihl := setCmodeGroupList_defines_aux E gs cs s g hg'
      constructor
      · intro p
        exact setCmodeGroupOwn_injDef_mono E gs d _ p g (ihl.1 p)
      · intro h
        exact setCmodeGroupOwn_prodDef_mono E gs d _ g (ihl.2 h)

/-- C10 auxiliary, list part. -/
theorem setCmodeGroupList_defines_aux (E : Env) (gs : GroupStateModel) :
    ∀ (cs : List GroupTree) (s : WState) (g : String), g ∈ treeNamesList cs →
      (∀ p : Phase, (setCmodeGroupList E gs cs s).injCtrlDefined p g = true)
      ∧ (gs.has_production_control g = false →
        (setCmodeGroupList E gs cs s).prodCtrlDefined g = true)
  | [], s, g, hg => by
    rw [treeNamesList] at hg
    cases hg
  | c :: rest, s, g, hg => by
    rw [treeNamesList] at hg
    rw [setCmodeGroupList]
    rcases List.mem_append.mp hg with hg' | hg'
    · have iht := setCmodeGroup_defines_aux E gs c s g hg'
      have ihl := setCmodeGroupList_mono E gs rest (setCmodeGroup E gs c s)
      constructor
      · intro p
        exact ihl.1 p g (iht.1 p)
      · intro h
        exact ihl.2 g (iht.2 h)
    · exact setCmodeGroupList_defines_aux E gs rest _ g hg'

end

/-- C10 counterexample: GX is in the subtree, yet after `setCmodeGroup` its
production group control is still undefined in the well state, because the
separate group-state object (not the well state) claimed to have one. -/
theorem setCmodeGroup_prodCtrl_undefined_counterexample :
    (setCmodeGroup envScenario gsHasGX (.node gxData []) wsScenario).prodCtrlDefined "GX"
        = false
    ∧ "GX" ∈ treeNames (.node gxData []) := by
  constructor
  · decide
  · decide

/-- C10 (amended): after `setCmodeGroup`, every group in the subtree has a
defined injection group control in the well state for each of the phases
WATER, OIL and GAS; and it has a defined production group control provided
the separate group-state object consulted by the default branch reported no
production control for it (in which case that control is defaulted to
`NONE` unless an event or gas-sale declaration supplies a value). -/
theorem setCmodeGroup_defines_controls (E : Env) (gs : GroupStateModel)
    (t : GroupTree) (s : WState) (g : String) (hg : g ∈ treeNames t) :
    (∀ p : Phase, (setCmodeGroup E gs t s).injCtrlDefined p g = true)
    ∧ (gs.has_production_control g = false →
      (setCmodeGroup E gs t s).prodCtrlDefined g = true) :=
  setCmodeGroup_defines_aux E gs t s g hg

/-- C10 witness: for the single-group tree GX with a group-state object
reporting no production control, all injection controls and the production
control of GX are defined after the call. -/
theorem setCmodeGroup_defines_controls_witness :
    (setCmodeGroup envScenario gsNone (.node gxData []) wsScenario).injCtrlDefined
        Phase.GAS "GX" = true
    ∧ (setCmodeGroup envScenario gsNone (.node gxData []) wsScenario).prodCtrlDefined
        "GX" = true :=
  ⟨(setCmodeGroup_defines_controls envScenario gsNone (.node gxData []) wsScenario
      "GX" (by decide)).1 Phase.GAS,
   (setCmodeGroup_defines_controls envScenario gsNone (.node gxData []) wsScenario
      "GX" (by decide)).2 (by decide)⟩

theorem insertList_append {α : Type} :
    ∀ (ps qs : List (String × α)) (m : String → α),
      insertList (ps ++ qs) m = insertList qs (insertList ps m)
  | [], qs, m => rfl
  | p :: rest, qs, m => by
    rw [List.cons_append, insertList, insertList, insertList_append rest qs]

theorem insertList_apply_not_mem {α : Type} :
    ∀ (ps : List (String × α)) (m : String → α) (n : String),
      n ∉ ps.map Prod.fst → insertList ps m n = m n
  | [], _, _, _ => rfl
  | p :: rest, m, n, h => by
    simp only [List.map_cons, List.mem_cons, not_or] at h
    rw [insertList, insertList_apply_not_mem rest _ n (by simpa using h.2)]
    unfold updMap
    rw [if_neg h.1]

theorem insertList_congr {α : Type} :
    ∀ (ps : List (String × α)) (m m' : String → α),
      (∀ n, n ∉ ps.map Prod.fst → m n = m' n) → insertList ps m = insertList ps m'
  | [], m, m', h => funext fun n => h n (by simp)
  | p :: rest, m, m', h => by
    rw [insertList, insertList]
    apply insertList_congr rest
    intro n hn
    unfold updMap
    split
    · rfl
    · next hne =>
      apply h n
      simp only [List.map_cons, List.mem_cons, not_or]
      exact ⟨hne, hn⟩

theorem insertList_idem {α : Type} (ps : List (String × α)) (m : String → α) :
    insertList ps (insertList ps m) = insertList ps m :=
  insertList_congr ps _ m (fun n hn => insertList_apply_not_mem ps m n hn)

mutual

/-- Characterization of `updateGroupMapMulti` for a lawful lens: it writes
exactly the pairs of the tree into the selected map and changes nothing
else. -/
theorem updateGroupMapMulti_char {α : Type}
    (pairsOf : GroupTree → List (String × α))
    (get : WState → String → α) (put : WState → (String → α) → WState)
    (law1 : ∀ s m, get (put s m) = m)
    (law2 : ∀ s m m', put (put s m) m' = put s m')
    (law3 : ∀ s, put s (get s) = s) :
    ∀ (t : GroupTree) (s : WState),
      updateGroupMapMulti pairsOf get put t s
        = put s (insertList (groupMapPairs pairsOf t) (get s))
  | .node d cs, s => by
    rw [updateGroupMapMulti, groupMapPairs,
      updateGroupMapMultiList_char pairsOf get put law1 law2 law3 cs s,
      law1, law2, insertList_append]

/-- Characterization of the child-group loop. -/
theorem updateGroupMapMultiList_char {α : Type}
    (pairsOf : GroupTree → List (String × α))
    (get : WState → String → α) (put : WState → (String → α) → WState)
    (law1 : ∀ s m, get (put s m) = m)
    (law2 : ∀ s m m', put (put s m) m' = put s m')
    (law3 : ∀ s, put s (get s) = s) :
    ∀ (cs : List GroupTree) (s : WState),
      updateGroupMapMultiList pairsOf get put cs s
        = put s (insertList (groupMapPairsList pairsOf cs) (get s))
  | [], s => by
    rw [updateGroupMapMultiList, groupMapPairsList, insertList, law3]
  | c :: rest, s => by
    rw [updateGroupMapMultiList, groupMapPairsList,
      updateGroupMapMulti_char pairsOf get put law1 law2 law3 c s,
      updateGroupMapMultiList_char pairsOf get put law1 law2 law3 rest _,
      law1, law2, insertList_append]

end

/-- Idempotence of `updateGroupMapMulti` for a lawful lens: a second run
writes the same entries again. -/
theorem updateGroupMapMulti_idem {α : Type}
    (pairsOf : GroupTree → List (String × α))
    (get : WState → String → α) (put : WState → (String → α) → WState)
    (law1 : ∀ s m, get (put s m) = m)
    (law2 : ∀ s m m', put (put s m) m' = put s m')
    (law3 : ∀ s, put s (get s) = s)
    (t : GroupTree) (s : WState) :
    updateGroupMapMulti pairsOf get put t (updateGroupMapMulti pairsOf get put t s)
      = updateGroupMapMulti pairsOf get put t s := by
  rw [updateGroupMapMulti_char pairsOf get put law1 law2 law3 t s,
    updateGroupMapMulti_char pairsOf get put law1 law2 law3 t _,
    law1, law2, insertList_idem]

theorem insertList_singleton {α : Type} (k : String) (v : α) (m : String → α) :
    insertList [(k, v)] m = updMap m k v := rfl

mutual

/-- Characterization of `updateGroupTargetReduction`: it writes exactly the
tree's reduction vectors (computed from the frozen nupcol state and the
initial state's control projections) into the reduction map for its role,
and changes nothing else. -/
theorem updateGroupTargetReduction_char (E : Env) (reg : GuideRateReg)
    (nup : WState) (isInj : Bool) :
    ∀ (t : GroupTree) (s : WState),
      updateGroupTargetReduction E reg nup isInj t s
        = (if isInj then
            { s with injRed := (insertList
                (trPairs E reg nup isInj s.injCtrl s.prodCtrl s.wellIsInjGrup s.wellIsProdGrup t)
                s.injRed) }
          else
            { s with prodRed := (insertList
                (trPairs E reg nup isInj s.injCtrl s.prodCtrl s.wellIsInjGrup s.wellIsProdGrup t)
                s.prodRed) },
          groupTargetReductionVec E reg nup isInj s.injCtrl s.prodCtrl
            s.wellIsInjGrup s.wellIsProdGrup t)
  | .node d cs, s => by
    rw [updateGroupTargetReduction,
      updateGroupTargetReductionList_char E reg nup isInj cs s (List.replicate E.np 0),
      trPairs, groupTargetReductionVec]
    cases isInj with
    | false =>
      simp only [Bool.false_eq_true, if_false]
      rw [insertList_append, insertList_singleton]
    | true =>
      simp only [if_true]
      rw [insertList_append, insertList_singleton]

/-- Characterization of the subgroup loop of `updateGroupTargetReduction`. -/
theorem updateGroupTargetReductionList_char (E : Env) (reg : GuideRateReg)
    (nup : WState) (isInj : Bool) :
    ∀ (cs : List GroupTree) (s : WState) (red : List ℚ),
      updateGroupTargetReductionList E reg nup isInj cs s red
        = (if isInj then
            { s with injRed := (insertList
                (trPairsList E reg nup isInj s.injCtrl s.prodCtrl s.wellIsInjGrup s.wellIsProdGrup cs)
                s.injRed) }
          else
            { s with prodRed := (insertList
                (trPairsList E reg nup isInj s.injCtrl s.prodCtrl s.wellIsInjGrup s.wellIsProdGrup cs)
                s.prodRed) },
          groupTargetReductionVecList E reg nup isInj s.injCtrl s.prodCtrl
            s.wellIsInjGrup s.wellIsProdGrup cs red)
  | [], s, red => by
    rw [updateGroupTargetReductionList, trPairsList, groupTargetReductionVecList]
    cases isInj with
    | false => simp only [Bool.false_eq_true, if_false, insertList]
    | true => simp only [if_true, insertList]
  | c :: rest, s, red => by
    rw [updateGroupTargetReductionList, trPairsList, groupTargetReductionVecList]
    rw [updateGroupTargetReduction_char E reg nup isInj c s]
    cases isInj with
    | false =>
      simp only [Bool.false_eq_true, if_false]
      rw [updateGroupTargetReductionList_char E reg nup false rest _ _]
      simp only [Bool.false_eq_true, if_false]
      rw [insertList_append]
    | true =>
      simp only [if_true]
      rw [updateGroupTargetReductionList_char E reg nup true rest _ _]
      simp only [if_true]
      rw [insertList_append]

end

/-- Idempotence of `updateGroupTargetReduction`: its writes depend only on
the frozen nupcol state and on control projections it never writes. -/
theorem updateGroupTargetReduction_idem (E : Env) (reg : GuideRateReg)
    (nup : WState) (isInj : Bool) (t : GroupTree) (s : WState) :
    (updateGroupTargetReduction E reg nup isInj t
        ((updateGroupTargetReduction E reg nup isInj t s).1)).1
      = (updateGroupTargetReduction E reg nup isInj t s).1 := by
  rw [updateGroupTargetReduction_char E reg nup isInj t s]
  cases isInj with
  | false =>
    simp only [Bool.false_eq_true, if_false]
    rw [updateGroupTargetReduction_char E reg nup false t _]
    simp only [Bool.false_eq_true, if_false]
    rw [insertList_idem]
  | true =>
    simp only [if_true]
    rw [updateGroupTargetReduction_char E reg nup true t _]
    simp only [if_true]
    rw [insertList_idem]

/-- C8: each of the exposed update functions
(`updateGroupTargetReduction` for both roles, `updateREINForGroups`,
`updateVREPForGroups`, `updateReservoirRatesInjectionGroups`,
`updateWellRates`, `updateGroupProductionRates`), called twice in succession
with the same schedule and the same frozen nupcol state, leaves the written
well state equal to its value after the first call: there is no hidden
accumulation across calls. -/
theorem update_functions_idempotent (E : Env) (reg : GuideRateReg)
    (nup : WState) (isInj : Bool) (t : GroupTree) (s : WState) :
    (updateGroupTargetReduction E reg nup isInj t
        ((updateGroupTargetReduction E reg nup isInj t s).1)).1
      = (updateGroupTargetReduction E reg nup isInj t s).1
    ∧ updateREINForGroups E nup t (updateREINForGroups E nup t s)
      = updateREINForGroups E nup t s
    ∧ updateVREPForGroups E nup t (updateVREPForGroups E nup t s)
      = updateVREPForGroups E nup t s
    ∧ updateReservoirRatesInjectionGroups E nup t
        (updateReservoirRatesInjectionGroups E nup t s)
      = updateReservoirRatesInjectionGroups E nup t s
    ∧ updateWellRates E nup t (updateWellRates E nup t s)
      = updateWellRates E nup t s
    ∧ updateGroupProductionRates E nup t (updateGroupProductionRates E nup t s)
      = updateGroupProductionRates E nup t s :=
  by
  refine ⟨updateGroupTargetReduction_idem E reg nup isInj t s, ?_, ?_, ?_, ?_, ?_⟩
  · unfold updateREINForGroups
    apply updateGroupMapMulti_idem <;> intros <;> rfl
  · unfold updateVREPForGroups
    apply updateGroupMapMulti_idem <;> intros <;> rfl
  · unfold updateReservoirRatesInjectionGroups
    apply updateGroupMapMulti_idem <;> intros <;> rfl
  · unfold updateWellRates
    apply updateGroupMapMulti_idem <;> intros <;> rfl
  · unfold updateGroupProductionRates
    apply updateGroupMapMulti_idem <;> intros <;> rfl

theorem updMap_apply_ne {α : Type} (m : String → α) (k : String) (v : α)
    (n : String) (h : n ≠ k) : updMap m k v n = m n := by
  unfold updMap
  rw [if_neg h]

theorem updMap_apply_self {α : Type} (m : String → α) (k : String) (v : α) :
    updMap m k v k = v := by
  unfold updMap
  rw [if_pos rfl]

theorem nodePressureStep_preserve (net : Network)
    (vfpEval : ℕ → ℚ → ℚ → ℚ → ℚ → ℚ → ℚ) (inflows : String → Option (List ℚ))
    (m : String → Option ℚ) (q n : String) (v : ℚ)
    (hne : n ≠ q) (hv : m n = some v) :
    nodePressureStep net vfpEval inflows m q n = some v := by
  unfold nodePressureStep
  cases net.terminalPressure q with
  | some press =>
    dsimp only
    rw [updMap_apply_ne m q _ n hne, hv]
  | none =>
    cases net.uptreeBranch q with
    | none => exact hv
    | some br =>
      dsimp only
      have hm1 : (match m br.uptree_node with
          | some _ => m
          | none => updMap m br.uptree_node (some 0)) n = some v := by
        cases hup : m br.uptree_node with
        | some _ => exact hv
        | none =>
          dsimp only
          by_cases hbn : n = br.uptree_node
          · rw [hbn] at hv
            rw [hv] at hup
            cases hup
          · rw [updMap_apply_ne m br.uptree_node _ n hbn]
            exact hv
      cases br.vfp_table with
      | some tbl =>
        dsimp only
        rw [updMap_apply_ne _ q _ n hne]
        exact hm1
      | none =>
        dsimp only
        rw [updMap_apply_ne _ q _ n hne]
        exact hm1

theorem computeNodePressures_preserve (net : Network)
    (vfpEval : ℕ → ℚ → ℚ → ℚ → ℚ → ℚ → ℚ) (inflows : String → Option (List ℚ)) :
    ∀ (l : List String) (m : String → Option ℚ) (n : String) (v : ℚ),
      m n = some v → n ∉ l →
      computeNodePressures net vfpEval inflows l m n = some v
  | [], m, n, v, hv, _ => hv
  | q :: rest, m, n, v, hv, hmem => by
    simp only [List.mem_cons, not_or] at hmem
    rw [computeNodePressures]
    exact computeNodePressures_preserve net vfpEval inflows rest _ n v
      (nodePressureStep_preserve net vfpEval inflows m q n v hmem.1 hv) hmem.2

theorem computeNodePressures_append (net : Network)
    (vfpEval : ℕ → ℚ → ℚ → ℚ → ℚ → ℚ → ℚ) (inflows : String → Option (List ℚ)) :
    ∀ (l1 l2 : List String) (m : String → Option ℚ),
      computeNodePressures net vfpEval inflows (l1 ++ l2) m
        = computeNodePressures net vfpEval inflows l2
            (computeNodePressures net vfpEval inflows l1 m)
  | [], l2, m => rfl
  | q :: rest, l2, m => by
    rw [List.cons_append, computeNodePressures, computeNodePressures,
      computeNodePressures_append net vfpEval inflows rest l2 _]

theorem nodePressureStep_writes_self (net : Network)
    (vfpEval : ℕ → ℚ → ℚ → ℚ → ℚ → ℚ → ℚ) (inflows : String → Option (List ℚ))
    (m : String → Option ℚ) (p : String)
    (hpw : (net.terminalPressure p).isSome = true ∨ (net.uptreeBranch p).isSome = true) :
    ∃ v, nodePressureStep net vfpEval inflows m p p = some v := by
  unfold nodePressureStep
  cases htp : net.terminalPressure p with
  | some press => exact ⟨press, updMap_apply_self m p _⟩
  | none =>
    cases hub : net.uptreeBranch p with
    | none =>
      rw [htp, hub] at hpw
      simpa using hpw
    | some br =>
      dsimp only
      cases br.vfp_table with
      | some tbl => exact ⟨_, updMap_apply_self _ p _⟩
      | none => exact ⟨_, updMap_apply_self _ p _⟩

theorem nodePressureStep_no_vfp (net : Network)
    (vfpEval : ℕ → ℚ → ℚ → ℚ → ℚ → ℚ → ℚ) (inflows : String → Option (List ℚ))
    (m : String → Option ℚ) (n : String) (br : NetBranch) (vp : ℚ)
    (htp : net.terminalPressure n = none)
    (hbr : net.uptreeBranch n = some br)
    (hbrv : br.vfp_table = none)
    (hp : m br.uptree_node = some vp) :
    nodePressureStep net vfpEval inflows m n n = some vp
    ∧ nodePressureStep net vfpEval inflows m n br.uptree_node = some vp := by
  unfold nodePressureStep
  rw [htp, hbr]
  dsimp only
  rw [hp, hbrv]
  dsimp only
  constructor
  · exact updMap_apply_self m n _
  · by_cases hbn : br.uptree_node = n
    · rw [hbn]
      exact updMap_apply_self m n _
    · rw [updMap_apply_ne m n _ br.uptree_node hbn]
      exact hp

/-- The cons unfolding of pass 3. -/
theorem computeNodePressures_cons (net : Network)
    (vfpEval : ℕ → ℚ → ℚ → ℚ → ℚ → ℚ → ℚ) (inflows : String → Option (List ℚ))
    (q : String) (l : List String) (m : String → Option ℚ) :
    computeNodePressures net vfpEval inflows (q :: l) m
      = computeNodePressures net vfpEval inflows l
          (nodePressureStep net vfpEval inflows m q) := rfl

/-- C9: in `computeNetworkPressures`, every non-root node (no terminal
pressure of its own) whose uptree branch carries no VFP table gets exactly
the already-computed pressure of its uptree (parent) node, whatever the
inflow rates are.  The order hypotheses are what pass 1 guarantees for a
well-formed (forest-shaped) network: the parent `p` appears before the node
`n` and each of them appears exactly once. -/
theorem computeNetworkPressures_no_vfp_inherits (net : Network) (E : Env)
    (s : WState) (vfpEval : ℕ → ℚ → ℚ → ℚ → ℚ → ℚ → ℚ) (fuel : ℕ)
    (a b c leaves : List String) (p n : String) (br : NetBranch)
    (hactive : net.active = true)
    (horder : networkOrderAndLeaves net fuel = some (a ++ ((p :: b) ++ (n :: c)), leaves))
    (hpb : p ∉ b) (hpn : p ≠ n) (hpc : p ∉ c) (hnc : n ∉ c)
    (htp : net.terminalPressure n = none)
    (hbr : net.uptreeBranch n = some br)
    (hbru : br.uptree_node = p)
    (hbrv : br.vfp_table = none)
    (hpw : (net.terminalPressure p).isSome = true ∨ (net.uptreeBranch p).isSome = true) :
    ∃ final, computeNetworkPressures net E s vfpEval fuel = some final
      ∧ final n = final p ∧ (final p).isSome = true := by
  unfold computeNetworkPressures
  rw [horder]
  rw [if_neg (by simp [hactive])]
  refine ⟨_, rfl, ?_⟩
  set inflows := networkInflows net E s (a ++ ((p :: b) ++ (n :: c))) leaves with hinf
  rw [computeNodePressures_append net vfpEval inflows a ((p :: b) ++ (n :: c)) _,
    computeNodePressures_append net vfpEval inflows (p :: b) (n :: c) _,
    computeNodePressures_cons, computeNodePressures_cons]
  set M0 := computeNodePressures net vfpEval inflows a (fun _ => none) with hM0def
  set M1 := nodePressureStep net vfpEval inflows M0 p with hM1def
  set Mb := computeNodePressures net vfpEval inflows b M1 with hMbdef
  set Mn := nodePressureStep net vfpEval inflows Mb n with hMndef
  obtain ⟨vp, hvp⟩ := nodePressureStep_writes_self net vfpEval inflows M0 p hpw
  have hMb : Mb p = some vp := by
    rw [hMbdef]
    exact computeNodePressures_preserve net vfpEval inflows b M1 p vp (by rw [hM1def]; exact hvp) hpb
  have hstep := nodePressureStep_no_vfp net vfpEval inflows Mb n br vp htp hbr hbrv
    (by rw [hbru]; exact hMb)
  have h1 : computeNodePressures net vfpEval inflows c Mn n = some vp :=
    computeNodePressures_preserve net vfpEval inflows c Mn n vp
      (by rw [hMndef]; exact hstep.1) hnc
  have h2 : computeNodePressures net vfpEval inflows c Mn p = some vp :=
    computeNodePressures_preserve net vfpEval inflows c Mn p vp
      (by rw [hMndef, ← hbru]; exact hstep.2) hpc
  rw [h1, h2]
  exact ⟨rfl, rfl⟩

/-- C9 witness: in the scenario, the leaf's computed pressure is exactly the
root's fixed 50, irrespective of the leaf's flow rates. -/
theorem computeNetworkPressures_no_vfp_inherits_witness :
    (computeNetworkPressures netScenario envScenario wsNet vfpZero 5).bind
      (fun f => f "L") = some 50 := by
  obtain ⟨final, hfin, heq, _⟩ :=
    computeNetworkPressures_no_vfp_inherits netScenario envScenario wsNet vfpZero 5
      [] [] [] ["L"] "R" "L" { downtree_node := "L", uptree_node := "R", vfp_table := none }
      rfl (by decide) (by decide) (by decide) (by decide) (by decide)
      rfl rfl rfl rfl (Or.inl rfl)
  have hconc : (computeNetworkPressures netScenario envScenario wsNet vfpZero 5).bind
      (fun f => f "R") = some 50 := by
    norm_num +decide [computeNetworkPressures, networkOrderAndLeaves, discoverLoop,
      networkInflows, initialInflows, accumulateInflows, computeNodePressures,
      nodePressureStep, updMap, netScenario, wsNet, wsScenario, envScenario,
      vfpZero, aquaPos, liquidPos, vapourPos]
  rw [hfin] at hconc ⊢
  simp only [Option.bind] at hconc ⊢
  rw [heq]
  exact hconc

end WellGroupHelpers
